import Mathlib

/-!
A verification development for the core data-cube assembly routines of the
`xcube-eopf` package: the temporal normalizer (`utils.convert_to_solar_time`,
`utils.add_nominal_datetime`), the first-valid-pixel mosaicker
(`utils.mosaic_spatial_take_first`), the Sentinel-2 and Sentinel-3 item
groupers (`prodhandlers/sentinel2.group_items`,
`prodhandlers/sentinel3.group_items`), the Sentinel-3 acquisition
deduplicator (`prodhandlers/sentinel3._filter_acquisition_time`,
`_get_base_id`, `_extract_timestamps`), and the zone merger's resampling
decision (`prodhandlers/sentinel2._resample_dataset_soft`).

Modelling conventions:
* Datetimes are integer seconds since the epoch; `datetime.date()` is the
  floor division of that count by 86400 (one calendar day).
* Bounding-box coordinates and longitudes are rationals (stand-ins for the
  floats of the code; none of the modelled code performs rounding-sensitive
  float arithmetic on them, only `+`, `/` and `int(...)`).
* Raster values are `Option ℤ`: `none` models the NaN no-data sentinel and
  `some v` a valid sample, since the mosaicking code only ever tests values
  with `isnan` and selects them, never computes with them.
* An `xarray.Dataset` is a list of named variables (python dicts are
  insertion ordered) plus dataset attributes; each variable records its
  dimension names, dtype name, coordinates, flattened values and attributes.
  Elementwise stacking/argmax/choose over equally-shaped arrays is modelled
  on the flattened value lists.
* `get_spatial_coords` belongs to the external `xcube_resampling` library
  (out of scope, specified at its interface): it is modelled as the pair of
  spatial dimension names `(x_coord, y_coord)` passed explicitly to the
  mosaicker.
* Python strings are Lean `String`s; Python's string comparison (used by
  `max(..., key=...)` on embedded timestamps) is code-point lexicographic
  comparison, implemented here on the underlying character lists.
* Logging is modelled by making warning emission explicit in return values
  (a `Bool` flag or a list of warning tags), since the code's observable
  warning behaviour is part of the claims.
-/

/-- Python `int(q)` on a rational: truncation toward zero, i.e. floor for
nonnegative arguments and ceiling for negative ones. -/
def pyInt (q : ℚ) : ℤ := if 0 ≤ q then ⌊q⌋ else ⌈q⌉

/-- From `utils.convert_to_solar_time`: `utc + timedelta(seconds=int(longitude / 15) * 3600)`. -/
def convert_to_solar_time (utc : ℤ) (longitude : ℚ) : ℤ :=
  utc + pyInt (longitude / 15) * 3600

/-- A bounding box `(min_x, min_y, max_x, max_y)`. -/
structure Bbox where
  xmin : ℚ
  ymin : ℚ
  xmax : ℚ
  ymax : ℚ
deriving DecidableEq

/-- From `utils.get_center_from_bbox`: `((bbox[0] + bbox[2]) / 2, (bbox[1] + bbox[3]) / 2)`. -/
def get_center_from_bbox (b : Bbox) : ℚ × ℚ :=
  ((b.xmin + b.xmax) / 2, (b.ymin + b.ymax) / 2)

/-- A STAC catalog item, restricted to the fields the modelled code reads:
the identifier, the UTC acquisition datetime (seconds), the WGS84 bounding
box, and the `grid:code` tile identifier (unused by the Sentinel-3 paths). -/
structure Item where
  id : String
  datetime : ℤ
  bbox : Bbox
  tile : String
deriving DecidableEq

/-- From `utils.add_nominal_datetime`: the derived
`properties["datetime_nominal"]` of an item, i.e.
`convert_to_solar_time(item.datetime, center_point[0])` where
`center_point = get_center_from_bbox(item.bbox)`.  The python code stores
the value in the mutable properties dict; it is modelled as a derived
function of the immutable item. -/
def datetime_nominal (it : Item) : ℤ :=
  convert_to_solar_time it.datetime (get_center_from_bbox it.bbox).1

/-- Calendar-day index of a datetime, modelling `datetime.date()` on a
seconds-since-epoch count (floor division by 86400). -/
def dayOf (t : ℤ) : ℤ := Int.ediv t 86400

/-- A variable (an `xarray.DataArray`) of a dataset: dimension names, dtype
name, coordinates (name to coordinate values), flattened cell values
(`none` = NaN) and attributes. -/
structure DataArr where
  dims : List String
  dtype : String
  coords : List (String × List ℤ)
  vals : List (Option ℤ)
  attrs : List (String × String)
deriving DecidableEq

/-- An `xarray.Dataset`: insertion-ordered named variables plus attributes. -/
structure Dataset where
  vars : List (String × DataArr)
  attrs : List (String × String)
deriving DecidableEq

/-- The last two dimension names of a variable, `var.dims[-2:]`. -/
def lastTwoDims (dims : List String) : List String := dims.drop (dims.length - 2)

/-- Test from `utils.mosaic_spatial_take_first`:
`list_ds[0][key].dims[-2:] == (y_coord, x_coord)`. -/
def isSpatialVar (y_coord x_coord : String) (v : DataArr) : Bool :=
  lastTwoDims v.dims == [y_coord, x_coord]

/-- Flattened data of variable `key` of a dataset (`ds[key].data`); the
python code raises `KeyError` for a missing variable, a case none of the
modelled call sites reach, so the model returns an empty array there. -/
def dsVals (key : String) (ds : Dataset) : List (Option ℤ) :=
  match ds.vars.lookup key with
  | some v => v.vals
  | none => []

/-- Value of variable `key` of dataset `ds` at flattened pixel position `p`. -/
def pixel (ds : Dataset) (key : String) (p : ℕ) : Option ℤ :=
  (dsVals key ds).getD p none

/-- The `nonnan_mask.argmax(axis=0)` step at one pixel: `numpy.argmax` over
the stacked boolean not-NaN mask returns the index of the first `True`
entry, and `0` when every entry is `False`. -/
def firstNonNanIndex (stack : List (Option ℤ)) : ℕ :=
  let i := stack.findIdx (fun v => v.isSome)
  if i < stack.length then i else 0

/-- The stacked values of variable `key` across the input datasets at one
pixel (`da.stack([ds[key].data for ds in list_ds], axis=0)` at position `p`). -/
def stackAt (list_ds : List Dataset) (key : String) (p : ℕ) : List (Option ℤ) :=
  list_ds.map (fun ds => pixel ds key p)

/-- The `da.choose(first_non_nan_index, da_arr)` step at one pixel. -/
def chooseAt (list_ds : List Dataset) (key : String) (p : ℕ) : Option ℤ :=
  let stack := stackAt list_ds key p
  stack.getD (firstNonNanIndex stack) none

/-- The mosaicked variable built from `list_ds[0][key]`: same dims, coords
and attrs, values selected pixelwise by the first-not-NaN rule; the shape is
that of the first dataset's variable. -/
def mosaicVar (list_ds : List Dataset) (key : String) (v : DataArr) : DataArr :=
  { dims := v.dims
    dtype := v.dtype
    coords := v.coords
    vals := (List.range v.vals.length).map (chooseAt list_ds key)
    attrs := v.attrs }

/-- From `utils.mosaic_spatial_take_first`.  A single dataset is returned
unchanged.  For two or more datasets, only the variables of the first
dataset whose trailing dimensions are `(y_coord, x_coord)` are processed;
each is mosaicked by taking, at every pixel, the first not-NaN value across
the stack; dataset attributes are copied from the first dataset.
`(x_coord, y_coord)` stands for the result of the external
`get_spatial_coords(list_ds[0])`.  The python code indexes `list_ds[0]` and
so needs a non-empty list; the model returns an empty dataset for `[]`. -/
def mosaic_spatial_take_first (y_coord x_coord : String) : List Dataset → Dataset
  | [] => { vars := [], attrs := [] }
  | [ds] => ds
  | ds0 :: ds1 :: rest =>
    { vars :=
        (ds0.vars.filter (fun kv => isSpatialVar y_coord x_coord kv.2)).map
          (fun kv => (kv.1, mosaicVar (ds0 :: ds1 :: rest) kv.1 kv.2))
      attrs := ds0.attrs }

/-- The first not-NaN value of a pixel stack, `none` if all entries are NaN
(the specification-side description of the first-valid-pixel rule). -/
def firstValid (stack : List (Option ℤ)) : Option ℤ :=
  (stack.find? (fun v => v.isSome)).join

/-- Code-point lexicographic strict comparison of character lists, the
semantics of python's `<` on strings. -/
def charListLt : List Char → List Char → Bool
  | _, [] => false
  | [], _ :: _ => true
  | a :: as, b :: bs =>
    if a.toNat < b.toNat then true
    else if b.toNat < a.toNat then false
    else charListLt as bs

/-- Python string strict comparison `s < t`. -/
def strLt (s t : String) : Bool := charListLt s.toList t.toList

/-- Code-point lexicographic non-strict comparison of character lists. -/
def charListLe : List Char → List Char → Bool
  | [], _ => true
  | _ :: _, [] => false
  | a :: as, b :: bs =>
    if a.toNat < b.toNat then true
    else if b.toNat < a.toNat then false
    else charListLe as bs

/-- Python string comparison `s <= t`. -/
def strLe (s t : String) : Bool := charListLe s.toList t.toList

/-- Ascending sorted distinct values, modelling `numpy.unique` on integers. -/
def sortedUniqueInt (l : List ℤ) : List ℤ :=
  (List.insertionSort (· ≤ ·) l).dedup

/-- Ascending sorted distinct values, modelling `numpy.unique` on strings
(lexicographic by code point). -/
def sortedUniqueStr (l : List String) : List String :=
  (List.insertionSort (fun s t => strLe s t = true) l).dedup

/-- The scatter loop shared by both `group_items` implementations: each item
is appended to the cell at the index of its key in the unique key list
(`np.where(keys == key)[0][0]`); cells start as empty lists. -/
def scatter {α κ : Type} [DecidableEq κ] (keys : List κ) (keyOf : α → κ)
    (items : List α) : List (List α) :=
  items.foldl
    (fun cells it =>
      let i := keys.findIdx (fun k => decide (k = keyOf it))
      cells.set i (cells.getD i [] ++ [it]))
    (keys.map fun _ => [])

namespace Sentinel2

/-- The nominal acquisition day of a Sentinel-2 item,
`item.properties["datetime_nominal"].date()`. -/
def itemDate (it : Item) : ℤ := dayOf (datetime_nominal it)

/-- The (nominal date, tile id) grouping key of a Sentinel-2 item. -/
def itemKey (it : Item) : ℤ × String := (itemDate it, it.tile)

/-- The row-major key list of the 2-D `(time, tile_id)` group array: the
cell `(idx_date, idx_tile_id)` of the numpy object array corresponds to the
flattened index `idx_date * len(tile_ids) + idx_tile_id`. -/
def productKeys (dates : List ℤ) (tiles : List String) : List (ℤ × String) :=
  dates.flatMap fun d => tiles.map fun t => (d, t)

/-- Row `i` (one nominal date) of the row-major cell list, `tiles_len` cells
wide. -/
def rowCells (cells : List (List Item)) (tiles_len i : ℕ) : List (List Item) :=
  (cells.drop (i * tiles_len)).take tiles_len

/-- The representative timestamp of one date row:
`np.sum(grouped_items.sel(time=date).values)[0].properties["datetime_nominal"]`,
i.e. the nominal datetime of the first item of the tile-order concatenation
of the row's cells.  Every date of the index has at least one item, so the
empty case is unreachable (python would raise `IndexError` there); the model
returns 0. -/
def repTime (row : List (List Item)) : ℤ :=
  match row.flatten with
  | [] => 0
  | it :: _ => datetime_nominal it

/-- The result of `sentinel2.group_items`: the `(time, tile_id)` 2-D group
index with its replaced time coordinate. -/
structure GroupedItems where
  times : List ℤ
  dates : List ℤ
  tile_ids : List String
  cells : List (List Item)
deriving DecidableEq

/-- From `sentinel2.group_items`: nominal dates and tile ids are collected
with `np.unique`, items are scattered into the `(date, tile)` cell grid in
input order, and the date coordinate is replaced by the nominal datetime of
the first item found for each date scanning tile order. -/
def group_items (items : List Item) : GroupedItems :=
  let dates := sortedUniqueInt (items.map itemDate)
  let tiles := sortedUniqueStr (items.map Item.tile)
  let cells := scatter (productKeys dates tiles) itemKey items
  { times := (List.range dates.length).map fun i => repTime (rowCells cells tiles.length i)
    dates := dates
    tile_ids := tiles
    cells := cells }

end Sentinel2

namespace Sentinel3

/-- Match of the regex `\d{8}T\d{6}` at the head of a character list:
exactly eight digits, a literal `T`, exactly six digits. -/
def tsMatch (l : List Char) : Option (List Char) :=
  let d8 := l.take 8
  if d8.length = 8 ∧ d8.all Char.isDigit then
    match l.drop 8 with
    | 'T' :: r =>
      let d6 := r.take 6
      if d6.length = 6 ∧ d6.all Char.isDigit then some (d8 ++ 'T' :: d6) else none
    | _ => none
  else none

/-- The scan of `re.findall(r"\d{8}T\d{6}", s)`, written with explicit
fuel to keep the recursion structural: try a match at each position; on
success emit it and continue after the matched text, otherwise advance one
character.  Every step consumes at least one character, so fuel equal to
the length of the input (supplied by `findTs`) never runs out. -/
def findTsAux : ℕ → List Char → List (List Char)
  | 0, _ => []
  | _, [] => []
  | fuel + 1, c :: rest =>
    match tsMatch (c :: rest) with
    | some m => m :: findTsAux fuel ((c :: rest).drop 15)
    | none => findTsAux fuel rest

/-- The scan of `re.findall(r"\d{8}T\d{6}", s)` over a whole string. -/
def findTs (l : List Char) : List (List Char) := findTsAux l.length l

/-- From `sentinel3._extract_timestamps`: all `YYYYMMDDThhmmss` substrings
of an item identifier, in order. -/
def extract_timestamps (s : String) : List String :=
  (findTs s.toList).map List.asString

/-- Python's substring test `sep in s`. -/
def containsSub (sep s : String) : Bool :=
  (List.range (s.toList.length + 1)).any (fun i => sep.toList.isPrefixOf (s.toList.drop i))

/-- The start index of the last occurrence of `sep` in `l`, if any. -/
def lastOccIdx (sep l : List Char) : Option ℕ :=
  ((List.range (l.length + 1)).filter (fun i => sep.isPrefixOf (l.drop i))).getLast?

/-- The first component of python's `s.rpartition(sep)`: the text before
the last occurrence of `sep`, and `""` when `sep` does not occur. -/
def rpartition_before (s sep : String) : String :=
  match lastOccIdx sep.toList s.toList with
  | some i => (s.toList.take i).asString
  | none => ""

/-- From `sentinel3._get_base_id`: strip the final embedded timestamp (and
its leading underscore) from the identifier; if fewer than three timestamps
are embedded, return the identifier unchanged (the code also logs a warning
in that case, see `base_id_warned`). -/
def get_base_id (item_id : String) : String :=
  let timestamps := extract_timestamps item_id
  if timestamps.length < 3 then item_id
  else
    let last_ts := timestamps.getLastD ""
    rpartition_before item_id ("_" ++ last_ts)

/-- Whether `_get_base_id` logs its "does not contain 3 timestamp" warning
for this identifier: exactly the `len(timestamps) < 3` branch. -/
def base_id_warned (item_id : String) : Bool :=
  decide ((extract_timestamps item_id).length < 3)

/-- The sort key of `_filter_acquisition_time`'s `max(...)` calls,
`_extract_timestamps(x.id)[-1]`, TOTALIZED: on an identifier with no
embedded timestamps it returns `""` where python raises `IndexError`.
This total version describes only the normal-termination result; the
faithful partial key is `lastTs?` below, and `filter_acquisition_time?`
tracks the exception path built on it.  The two models agree exactly when
no key evaluation fails (`filter_acq_checked_eq`). -/
def lastTsOf (it : Item) : String := (extract_timestamps it.id).getLastD ""

/-- Appending an item to the entry of key `b` of an insertion-ordered
association list, creating the entry at the end if absent — the behaviour
of `defaultdict(list)` under `groups[base_id].append(item)`. -/
def insertGroup (acc : List (String × List Item)) (b : String) (it : Item) :
    List (String × List Item) :=
  match acc with
  | [] => [(b, [it])]
  | (k, l) :: rest =>
    if k = b then (k, l ++ [it]) :: rest else (k, l) :: insertGroup rest b it

/-- The grouping loop of `_filter_acquisition_time`: items bucketed by
`_get_base_id(item.id)` into an insertion-ordered dict of lists. -/
def groupByBase (items : List Item) : List (String × List Item) :=
  items.foldl (fun acc it => insertGroup acc (get_base_id it.id) it) []

/-- Python `max(l, key=key)` for a string-valued key: the first element
whose key is maximal (python replaces the running maximum only on a
strictly greater key); `none` on the empty list (python raises there). -/
def pyMaxBy (key : Item → String) : List Item → Option Item
  | [] => none
  | x :: xs => some (xs.foldl (fun m y => if strLt (key m) (key y) then y else m) x)

/-- The per-group selection of `_filter_acquisition_time`: prefer the
latest-processing-timestamp item among those with `"_NT_"` in the id, else
the latest among those with `"_NR_"`, else drop the group. -/
def pickFromGroup (g : List Item) : Option Item :=
  let nt_items := g.filter (fun i => containsSub "_NT_" i.id)
  if nt_items.isEmpty then
    let nr_items := g.filter (fun i => containsSub "_NR_" i.id)
    if nr_items.isEmpty then none else pyMaxBy lastTsOf nr_items
  else pyMaxBy lastTsOf nt_items

/-- From `sentinel3._filter_acquisition_time`: deduplicate items by base
acquisition id, keeping one preferred item per group.  This is the
NORMAL-TERMINATION result; the exception path of the `max()` calls is
modelled by `filter_acquisition_time?` below, which agrees with this
function exactly when no `max()` raises. -/
def filter_acquisition_time (items : List Item) : List Item :=
  (groupByBase items).filterMap (fun bg => pickFromGroup bg.2)

/-- The partial sort key of the `max(...)` calls,
`_extract_timestamps(x.id)[-1]`: `none` when the identifier embeds no
timestamp, the case in which python raises `IndexError`. -/
def lastTs? (it : Item) : Option String := (extract_timestamps it.id).getLast?

/-- The loop of python `max(iterable, key=f)` after the first element: the
key of every further element is evaluated left to right (a failing key
aborts the whole call with `none`, python's `IndexError`), and the running
maximum is replaced only on a strictly greater key. -/
def pyMaxByGo (key : Item → Option String) : List Item → Item → String → Option Item
  | [], m, _ => some m
  | y :: ys, m, km =>
    match key y with
    | none => none
    | some ky => if strLt km ky then pyMaxByGo key ys y ky else pyMaxByGo key ys m km

/-- Python `max(l, key=f)` with a partial key: `none` models the raised
exception — on the empty list, or as soon as any element's key fails. -/
def pyMaxBy? (key : Item → Option String) : List Item → Option Item
  | [] => none
  | x :: xs =>
    match key x with
    | none => none
    | some kx => pyMaxByGo key xs x kx

/-- The per-group selection of `_filter_acquisition_time` with the
exception path explicit: `none` is an uncaught `IndexError` inside
`max()`; `some none` is a dropped group; `some (some it)` keeps `it`. -/
def pickFromGroup? (g : List Item) : Option (Option Item) :=
  let nt_items := g.filter (fun i => containsSub "_NT_" i.id)
  if nt_items.isEmpty then
    let nr_items := g.filter (fun i => containsSub "_NR_" i.id)
    if nr_items.isEmpty then some none
    else (pyMaxBy? lastTs? nr_items).map some
  else (pyMaxBy? lastTs? nt_items).map some

/-- `_filter_acquisition_time` with the exception path explicit: the
groups are processed in insertion order and the first `IndexError` raised
inside a `max()` call aborts the whole function (`none`); otherwise the
kept items are collected in group order. -/
def filter_acquisition_time? (items : List Item) : Option (List Item) :=
  (groupByBase items).foldl
    (fun acc bg =>
      match acc with
      | none => none
      | some res =>
        match pickFromGroup? bg.2 with
        | none => none
        | some none => some res
        | some (some it) => some (res ++ [it]))
    (some [])

/-- The nominal acquisition day of a Sentinel-3 item. -/
def itemDate (it : Item) : ℤ := dayOf (datetime_nominal it)

end Sentinel3

namespace Sentinel2

/-- The `spline_orders` open parameter: a single spline order for all
variables, or a dict mapping a spline order to the applicable variable
names / dtype names (dtypes are modelled by their names). -/
inductive SplineOrders where
  | scalar (n : ℤ)
  | byVar (entries : List (ℤ × List String))
deriving DecidableEq

/-- The `agg_methods` open parameter: a single aggregation method name for
all variables, or a dict mapping a method to the applicable variable
names / dtype names. -/
inductive AggMethods where
  | scalar (m : String)
  | byVar (entries : List (String × List String))
deriving DecidableEq

/-- Python truthiness of the optional `spline_orders` value, as tested by
`if spline_orders:` — `None`, the integer `0` and the empty dict are all
falsy. -/
def truthySplineOrders : Option SplineOrders → Bool
  | none => false
  | some (.scalar n) => !(n = 0)
  | some (.byVar entries) => !entries.isEmpty

/-- From `sentinel2._get_var_spline_order`: resolve the spline order of a
variable (first matching dict entry by name or dtype, else the scalar, else
the default 0 for `scl` and 3 otherwise); the second component records
whether the "may produce corrupted results" warning for a non-nearest order
on `scl` is logged. -/
def get_var_spline_order (spline_orders : Option SplineOrders) (key dtype : String) :
    ℤ × Bool :=
  let so : Option ℤ :=
    match spline_orders with
    | some (.byVar entries) =>
      (entries.find? (fun e => e.2.contains key || e.2.contains dtype)).map (fun e => e.1)
    | some (.scalar n) => some n
    | none => none
  let so := so.getD (if key = "scl" then 0 else 3)
  (so, decide (key = "scl") && !(so = 0))

/-- From `sentinel2._get_var_agg_method`: resolve the aggregation method of
a variable (first matching dict entry by name or dtype, else the scalar,
else the default `"center"` for `scl` and `"mean"` otherwise); the second
component records whether the "may produce corrupted results" warning for a
non-order-preserving method on `scl` is logged. -/
def get_var_agg_method (agg_methods : Option AggMethods) (key dtype : String) :
    String × Bool :=
  let m : Option String :=
    match agg_methods with
    | some (.byVar entries) =>
      (entries.find? (fun e => e.2.contains key || e.2.contains dtype)).map (fun e => e.1)
    | some (.scalar s) => some s
    | none => none
  let m := m.getD (if key = "scl" then "center" else "mean")
  (m, decide (key = "scl") && !(["center", "first", "last", "max", "min"].contains m))

/-- The `_INTERPOLATIONS` table `{0: "nearest", 2: "bilinear"}`; the code
only looks up the keys 0 and 2. -/
def INTERPOLATIONS (n : ℤ) : String :=
  if n = 0 then "nearest" else if n = 2 then "bilinear" else "KeyError"

/-- Warnings the resampling step can log. -/
inductive ResampleWarning where
  | splineOverrideIgnored
  | sclSplineCorrupt (n : ℤ)
  | sclAggCorrupt (m : String)
deriving DecidableEq

/-- A resolved per-variable configuration passed to the external resampling
primitives. -/
structure VarConfig where
  recover_nan : Bool
  spline_order : Option ℤ
  aggregator : String
deriving DecidableEq

/-- The resampling decision of `_resample_dataset_soft`, modelled as the
computation plan handed to the external (trusted) resampling library:
pass-through, affine transform with per-variable configs, or full
reprojection as a list of passes, each a set of variable names with the
interpolation used for them, plus the downscale configs. -/
inductive ResamplePlan where
  | passThrough
  | affine (var_configs : List (String × VarConfig))
  | reproject (passes : List (List String × String))
      (downscale_var_configs : List (String × VarConfig))
deriving DecidableEq

/-- Variable names of a dataset in order. -/
def varNames (ds : Dataset) : List String := ds.vars.map Prod.fst

/-- Warnings produced while building the affine-path `var_configs` dict:
for each variable, first the spline-order warning, then the
aggregation-method warning, if logged. -/
def affineWarnings (spline_orders : Option SplineOrders)
    (agg_methods : Option AggMethods) (ds : Dataset) : List ResampleWarning :=
  ds.vars.flatMap fun kv =>
    (if (get_var_spline_order spline_orders kv.1 kv.2.dtype).2 then
      [ResampleWarning.sclSplineCorrupt (get_var_spline_order spline_orders kv.1 kv.2.dtype).1]
    else []) ++
    (if (get_var_agg_method agg_methods kv.1 kv.2.dtype).2 then
      [ResampleWarning.sclAggCorrupt (get_var_agg_method agg_methods kv.1 kv.2.dtype).1]
    else [])

/-- Warnings produced while building the reprojection-path `var_configs`
dict (only aggregation methods are resolved there). -/
def reprojectWarnings (agg_methods : Option AggMethods) (ds : Dataset) :
    List ResampleWarning :=
  ds.vars.flatMap fun kv =>
    if (get_var_agg_method agg_methods kv.1 kv.2.dtype).2 then
      [ResampleWarning.sclAggCorrupt (get_var_agg_method agg_methods kv.1 kv.2.dtype).1]
    else []

/-- From `sentinel2._resample_dataset_soft`.  `is_close` stands for the
external `source_gm.is_close(target_gm)` grid-mapping comparison, and the
CRS strings for `source_gm.crs` / `target_gm.crs`.  If the grids are close
the dataset passes through; with equal CRS an affine transform is planned,
honoring per-variable spline order and aggregation overrides; with
different CRS a full reprojection is planned: a warning is logged if
`spline_orders` is truthy, and the dataset is reprojected with bilinear
interpolation (`_INTERPOLATIONS[2]`), with `scl` — when present — split
off into a second nearest-neighbor (`_INTERPOLATIONS[0]`) pass and the two
results recombined. -/
def resample_dataset_soft (ds : Dataset) (source_crs target_crs : String)
    (is_close : Bool) (spline_orders : Option SplineOrders)
    (agg_methods : Option AggMethods) : ResamplePlan × List ResampleWarning :=
  if is_close then (.passThrough, [])
  else if target_crs = source_crs then
    (.affine (ds.vars.map fun kv =>
        (kv.1,
         { recover_nan := true
           spline_order := some (get_var_spline_order spline_orders kv.1 kv.2.dtype).1
           aggregator := (get_var_agg_method agg_methods kv.1 kv.2.dtype).1 })),
     affineWarnings spline_orders agg_methods ds)
  else
    let overrideWarning :=
      if truthySplineOrders spline_orders then [ResampleWarning.splineOverrideIgnored] else []
    let var_configs := ds.vars.map fun kv =>
      (kv.1,
       { recover_nan := true
         spline_order := none
         aggregator := (get_var_agg_method agg_methods kv.1 kv.2.dtype).1 })
    let passes :=
      if (varNames ds).contains "scl" then
        [((varNames ds).filter (fun k => !(k = "scl")), INTERPOLATIONS 2),
         (["scl"], INTERPOLATIONS 0)]
      else [(varNames ds, INTERPOLATIONS 2)]
    (.reproject passes var_configs,
     overrideWarning ++ reprojectWarnings agg_methods ds)

end Sentinel2

namespace Sentinel3

/-- The result of `sentinel3.group_items`: the 1-D `(time,)` group index
with its replaced time coordinate. -/
structure GroupedItems where
  times : List ℤ
  dates : List ℤ
  cells : List (List Item)
deriving DecidableEq

/-- The representative timestamp of one date bucket:
`np.sum(grouped_items.sel(time=date).values)[0].datetime`, i.e. the
original UTC datetime (not the nominal one) of the first item of the
bucket.  Every date of the index has at least one item, so the empty case
is unreachable (python would raise `IndexError` there); the model
returns 0. -/
def repTime (cell : List Item) : ℤ :=
  match cell with
  | [] => 0
  | it :: _ => it.datetime

/-- From `sentinel3.group_items`: deduplicate via
`_filter_acquisition_time`, collect the distinct nominal dates, scatter the
surviving items into date buckets in input order, and replace each date by
the UTC datetime of the bucket's first item. -/
def group_items (items : List Item) : GroupedItems :=
  let items2 := filter_acquisition_time items
  let dates := sortedUniqueInt (items2.map itemDate)
  let cells := scatter dates itemDate items2
  { times := (List.range dates.length).map fun i => repTime (cells.getD i [])
    dates := dates
    cells := cells }

end Sentinel3

/-! Concrete data used by witnesses and counterexamples. -/

/-- A 1×2 spatial variable with one valid and one NaN pixel. -/
def varA : DataArr :=
  { dims := ["y", "x"], dtype := "float32"
    coords := [("y", [0]), ("x", [0, 10])]
    vals := [some 1, none], attrs := [("grid_mapping", "spatial_ref")] }

/-- A 1×2 spatial variable with two valid pixels. -/
def varB : DataArr :=
  { dims := ["y", "x"], dtype := "float32"
    coords := [("y", [0]), ("x", [0, 10])]
    vals := [some 5, some 6], attrs := [] }

/-- A fully valid 1×1 spatial variable. -/
def varS : DataArr :=
  { dims := ["y", "x"], dtype := "float32"
    coords := [("y", [0]), ("x", [0])]
    vals := [some 7], attrs := [] }

/-- A non-spatial (time-indexed) variable. -/
def varT : DataArr :=
  { dims := ["time"], dtype := "float32"
    coords := [("time", [0])]
    vals := [some 3], attrs := [] }

/-- First mosaic input: valid at pixel 0, NaN at pixel 1. -/
def dsA : Dataset := { vars := [("B01", varA)], attrs := [("a", "dsA")] }

/-- Second mosaic input: valid everywhere, different values. -/
def dsB : Dataset := { vars := [("B01", varB)], attrs := [("a", "dsB")] }

/-- A dataset with a fully valid spatial variable and a non-spatial
variable. -/
def dsC : Dataset :=
  { vars := [("B01", varS), ("t", varT)], attrs := [("a", "dsC")] }

/-- A dataset with the same variables and shapes as `dsC`, different
values. -/
def dsD : Dataset :=
  { vars :=
      [("B01", { varS with vals := [some 9] }),
       ("t", { varT with vals := [some 4] })]
    attrs := [("a", "dsD")] }

/-- A dataset whose variables are all spatial and fully valid. -/
def dsE : Dataset := { vars := [("B01", varB)], attrs := [("a", "dsE")] }

/-- A bounding box whose center longitude is 30°, giving a +2 h solar
offset. -/
def bbox30 : Bbox := ⟨29, 0, 31, 0⟩

/-- Sentinel-2 item on tile `"T2"`, first in input order. -/
def j1 : Item := { id := "j1", datetime := 100, bbox := bbox30, tile := "T2" }

/-- Sentinel-2 item on tile `"T1"`, same nominal date as `j1`, second in
input order but on the lexicographically first tile. -/
def j2 : Item := { id := "j2", datetime := 200, bbox := bbox30, tile := "T1" }

/-- Three Sentinel-2 items sharing one `(nominal date, tile)` key. -/
def k1 : Item := { id := "k1", datetime := 0, bbox := bbox30, tile := "T1" }

/-- Second item of the shared-key triple. -/
def k2 : Item := { id := "k2", datetime := 0, bbox := bbox30, tile := "T1" }

/-- Third item of the shared-key triple. -/
def k3 : Item := { id := "k3", datetime := 0, bbox := bbox30, tile := "T1" }

/-- A well-formed Sentinel-3 reprocessed (`_NT_`) item with three embedded
timestamps, acquired at UTC second 1000 with a +2 h solar offset. -/
def cS3 : Item :=
  { id := "S3A_X_20200101T000000_20200101T000100_20200103T000000_NT_1"
    datetime := 1000, bbox := bbox30, tile := "" }

/-- A malformed Sentinel-3 item: no embedded timestamps and neither an
`_NT_` nor an `_NR_` marker in the identifier. -/
def cMal : Item := { id := "FOO", datetime := 0, bbox := bbox30, tile := "" }

/-- A malformed Sentinel-3 item (a single embedded timestamp) that does
carry an `_NT_` marker. -/
def cMalNT : Item :=
  { id := "FOO_20200101T000000_NT_1", datetime := 5, bbox := bbox30, tile := "" }

/-- A Sentinel-3 item whose identifier carries an `_NT_` marker but embeds
NO timestamp at all: evaluating the `max()` sort key on it raises
`IndexError` in the python code. -/
def cCrash : Item := { id := "FOO_NT_BAR", datetime := 0, bbox := bbox30, tile := "" }

/-- A dataset carrying a continuous variable and the categorical `"scl"`
variable, used to exercise the reprojection planning. -/
def dsScl : Dataset := { vars := [("B01", varS), ("scl", varS)], attrs := [] }

/-- A near-real-time (`_NR_`) Sentinel-3 item, processing timestamp
2020-01-05. -/
def n1 : Item :=
  { id := "S3A_20200101T000000_20200101T000100_20200105T000000_NR_x"
    datetime := 10, bbox := bbox30, tile := "" }

/-- A reprocessed (`_NT_`) variant of the same acquisition as `n1`,
processing timestamp 2020-01-02. -/
def n2 : Item :=
  { id := "S3A_20200101T000000_20200101T000100_20200102T000000_NT_x"
    datetime := 20, bbox := bbox30, tile := "" }

/-- A later reprocessed (`_NT_`) variant of the same acquisition,
processing timestamp 2020-01-04. -/
def n3 : Item :=
  { id := "S3A_20200101T000000_20200101T000100_20200104T000000_NT_x"
    datetime := 30, bbox := bbox30, tile := "" }

/-! Helper lemmas about the code-point string order. -/

theorem charListLt_irrefl (a : List Char) : charListLt a a = false := by
  induction a with
  | nil => rfl
  | cons c cs ih => simp [charListLt, ih]

theorem charListLt_trans : ∀ a b c : List Char,
    charListLt a b = true → charListLt b c = true → charListLt a c = true := by
  intro a
  induction a with
  | nil =>
    intro b c hab hbc
    cases b with
    | nil => simp [charListLt] at hab
    | cons y ys =>
      cases c with
      | nil => simp [charListLt] at hbc
      | cons z zs => simp [charListLt]
  | cons x xs ih =>
    intro b c hab hbc
    cases b with
    | nil => simp [charListLt] at hab
    | cons y ys =>
      cases c with
      | nil => simp [charListLt] at hbc
      | cons z zs =>
        simp only [charListLt] at hab hbc ⊢
        by_cases h1 : x.toNat < y.toNat
        · by_cases h2 : y.toNat < z.toNat
          · simp [Nat.lt_trans h1 h2]
          · by_cases h3 : z.toNat < y.toNat
            · simp [h2, h3] at hbc
            · have hxz : x.toNat < z.toNat := by omega
              simp [hxz]
        · by_cases h1b : y.toNat < x.toNat
          · simp [h1, h1b] at hab
          · simp only [h1, h1b, if_false] at hab
            by_cases h2 : y.toNat < z.toNat
            · have hxz : x.toNat < z.toNat := by omega
              simp [hxz]
            · by_cases h3 : z.toNat < y.toNat
              · simp [h2, h3] at hbc
              · simp only [h2, h3, if_false] at hbc
                have hx : ¬ x.toNat < z.toNat := by omega
                have hz : ¬ z.toNat < x.toNat := by omega
                simp only [hx, hz, if_false]
                exact ih ys zs hab hbc

theorem charListLt_of_lt_of_not_lt : ∀ a b c : List Char,
    charListLt a b = true → charListLt c b = false → charListLt a c = true := by
  intro a
  induction a with
  | nil =>
    intro b c hab hcb
    cases b with
    | nil => simp [charListLt] at hab
    | cons y ys =>
      cases c with
      | nil => simp [charListLt] at hcb
      | cons z zs => simp [charListLt]
  | cons x xs ih =>
    intro b c hab hcb
    cases b with
    | nil => simp [charListLt] at hab
    | cons y ys =>
      cases c with
      | nil => simp [charListLt] at hcb
      | cons z zs =>
        simp only [charListLt] at hab hcb ⊢
        by_cases h2 : z.toNat < y.toNat
        · simp [h2] at hcb
        · by_cases h1 : x.toNat < y.toNat
          · have hxz : x.toNat < z.toNat := by omega
            simp [hxz]
          · by_cases h1b : y.toNat < x.toNat
            · simp [h1, h1b] at hab
            · by_cases h3 : y.toNat < z.toNat
              · have hxz : x.toNat < z.toNat := by omega
                simp [hxz]
              · simp only [h3, h2, if_false] at hcb
                simp only [h1, h1b, if_false] at hab
                have hx : ¬ x.toNat < z.toNat := by omega
                have hz : ¬ z.toNat < x.toNat := by omega
                simp only [hx, hz, if_false]
                exact ih ys zs hab hcb

theorem strLt_irrefl (s : String) : strLt s s = false :=
  charListLt_irrefl s.toList

theorem strLt_trans {a b c : String} (h1 : strLt a b = true) (h2 : strLt b c = true) :
    strLt a c = true :=
  charListLt_trans a.toList b.toList c.toList h1 h2

theorem strLt_of_lt_of_not_lt {a b c : String} (h1 : strLt a b = true)
    (h2 : strLt c b = false) : strLt a c = true :=
  charListLt_of_lt_of_not_lt a.toList b.toList c.toList h1 h2

/-! Helper lemmas about python `max(..., key=...)`. -/

theorem foldl_max_mem (key : Item → String) :
    ∀ (xs : List Item) (m : Item),
      xs.foldl (fun a y => if strLt (key a) (key y) then y else a) m ∈ m :: xs := by
  intro xs
  induction xs with
  | nil => intro m; simp
  | cons y ys ih =>
    intro m
    simp only [List.foldl_cons]
    by_cases hc : strLt (key m) (key y) = true
    · rw [if_pos hc]
      rcases List.mem_cons.mp (ih y) with h | h
      · rw [h]; exact List.mem_cons.mpr (Or.inr (List.mem_cons_self y ys))
      · exact List.mem_cons.mpr (Or.inr (List.mem_cons.mpr (Or.inr h)))
    · rw [if_neg hc]
      rcases List.mem_cons.mp (ih m) with h | h
      · rw [h]; exact List.mem_cons_self m (y :: ys)
      · exact List.mem_cons.mpr (Or.inr (List.mem_cons.mpr (Or.inr h)))

theorem foldl_max_maximal (key : Item → String) :
    ∀ (xs : List Item) (m j : Item), j ∈ m :: xs →
      strLt (key (xs.foldl (fun a y => if strLt (key a) (key y) then y else a) m)) (key j)
        = false := by
  intro xs
  induction xs with
  | nil =>
    intro m j hj
    simp only [List.mem_singleton] at hj
    rw [hj]
    simp only [List.foldl_nil]
    exact strLt_irrefl (key m)
  | cons y ys ih =>
    intro m j hj
    simp only [List.foldl_cons]
    by_cases hc : strLt (key m) (key y) = true
    · rw [if_pos hc]
      rcases List.mem_cons.mp hj with hm | hj2
      · rw [hm]
        by_cases hr :
            strLt (key (List.foldl (fun a y => if strLt (key a) (key y) then y else a) y ys))
              (key m) = true
        · exfalso
          have hry := strLt_trans hr hc
          have hy := ih y y (List.mem_cons_self y ys)
          rw [hy] at hry
          exact Bool.false_ne_true hry
        · exact eq_false_of_ne_true hr
      · exact ih y j hj2
    · rw [if_neg hc]
      rcases List.mem_cons.mp hj with hm | hj2
      · rw [hm]
        exact ih m m (List.mem_cons_self m ys)
      · rcases List.mem_cons.mp hj2 with hy | hj3
        · rw [hy]
          by_cases hr :
              strLt (key (List.foldl (fun a y => if strLt (key a) (key y) then y else a) m ys))
                (key y) = true
          · exfalso
            have hrm := strLt_of_lt_of_not_lt hr (eq_false_of_ne_true hc)
            have hm2 := ih m m (List.mem_cons_self m ys)
            rw [hm2] at hrm
            exact Bool.false_ne_true hrm
          · exact eq_false_of_ne_true hr
        · exact ih m j (List.mem_cons.mpr (Or.inr hj3))

theorem pyMaxBy_spec (key : Item → String) (l : List Item) (hne : l ≠ []) :
    ∃ it, Sentinel3.pyMaxBy key l = some it ∧ it ∈ l ∧
      ∀ j ∈ l, strLt (key it) (key j) = false := by
  cases l with
  | nil => exact absurd rfl hne
  | cons x xs =>
    exact ⟨xs.foldl (fun a y => if strLt (key a) (key y) then y else a) x, rfl,
      foldl_max_mem key xs x, fun j hj => foldl_max_maximal key xs x j hj⟩

/-! Helper lemmas about the mosaicker. -/

theorem getD_firstNonNanIndex : ∀ stack : List (Option ℤ), stack ≠ [] →
    stack.getD (firstNonNanIndex stack) none = firstValid stack := by
  intro stack h
  induction stack with
  | nil => exact absurd rfl h
  | cons v vs ih =>
    cases v with
    | some a =>
      have h0 : List.findIdx (fun w => w.isSome) (some a :: vs) = 0 := by
        simp [List.findIdx_cons]
      simp [firstNonNanIndex, firstValid, h0, List.find?_cons_of_pos]
    | none =>
      have h0 : List.findIdx (fun w => w.isSome) (none :: vs)
          = List.findIdx (fun w => w.isSome) vs + 1 := by
        simp [List.findIdx_cons]
      by_cases hlt : List.findIdx (fun w => w.isSome) vs < vs.length
      · have hne : vs ≠ [] := by
          intro hnil
          rw [hnil] at hlt
          simp at hlt
        have hih := ih hne
        have e0 : firstNonNanIndex vs = List.findIdx (fun w => w.isSome) vs := by
          simp only [firstNonNanIndex]
          rw [if_pos hlt]
        have e1 : firstNonNanIndex (none :: vs) = firstNonNanIndex vs + 1 := by
          simp only [firstNonNanIndex, h0, List.length_cons]
          rw [if_pos (Nat.succ_lt_succ hlt), if_pos hlt]
        rw [e1, List.getD_cons_succ, hih]
        simp only [firstValid]
        rw [List.find?_cons_of_neg _ (by simp)]
      · have hle : List.findIdx (fun w => Option.isSome w) vs ≤ vs.length :=
          List.findIdx_le_length (fun w => Option.isSome w)
        have hEq : List.findIdx (fun w => w.isSome) vs = vs.length := by omega
        have e1 : firstNonNanIndex (none :: vs) = 0 := by
          simp only [firstNonNanIndex, h0, List.length_cons]
          rw [if_neg (by omega)]
        rw [e1]
        have hall := List.findIdx_eq_length.mp hEq
        have hfind : List.find? (fun w => w.isSome) (none :: vs) = none := by
          apply List.find?_eq_none.mpr
          intro x hx
          rcases List.mem_cons.mp hx with h1 | h1
          · rw [h1]; simp
          · simp [hall x h1]
        simp [firstValid, hfind]

theorem lookup_mosaic_vars (y_coord x_coord : String) (list_ds : List Dataset) :
    ∀ (vars : List (String × DataArr)) (k : String) (v : DataArr),
      vars.lookup k = some v → isSpatialVar y_coord x_coord v = true →
      ((vars.filter (fun kv => isSpatialVar y_coord x_coord kv.2)).map
          (fun kv => (kv.1, mosaicVar list_ds kv.1 kv.2))).lookup k
        = some (mosaicVar list_ds k v) := by
  intro vars
  induction vars with
  | nil => intro k v hk _; simp [List.lookup] at hk
  | cons kv rest ih =>
    intro k v hk hsp
    obtain ⟨k1, v1⟩ := kv
    cases he : k == k1 with
    | true =>
      have hkk : k = k1 := beq_iff_eq.mp he
      have hv : v1 = v := by
        simp only [List.lookup, he] at hk
        exact Option.some.inj hk
      subst hv
      subst hkk
      rw [List.filter_cons_of_pos (by simpa using hsp)]
      simp [List.lookup]
    | false =>
      have hk2 : rest.lookup k = some v := by
        simpa only [List.lookup, he] using hk
      by_cases hsp1 : isSpatialVar y_coord x_coord v1 = true
      · rw [List.filter_cons_of_pos (by simpa using hsp1)]
        simp only [List.map_cons, List.lookup, he]
        exact ih k v hk2 hsp
      · rw [List.filter_cons_of_neg (by simpa using hsp1)]
        exact ih k v hk2 hsp

theorem map_getD_range {α : Type} (l : List α) (d : α) :
    (List.range l.length).map (fun p => l.getD p d) = l := by
  apply List.ext_getElem
  · simp
  · intro i h1 h2
    simp only [List.getElem_map, List.getElem_range]
    exact List.getD_eq_getElem l d h2

theorem lookup_of_mem_nodup :
    ∀ (vars : List (String × DataArr)) (k : String) (v : DataArr),
      (vars.map Prod.fst).Nodup → (k, v) ∈ vars → vars.lookup k = some v := by
  intro vars
  induction vars with
  | nil => intro k v _ hm; simp at hm
  | cons kv rest ih =>
    intro k v hnd hm
    obtain ⟨k1, v1⟩ := kv
    simp only [List.map_cons, List.nodup_cons] at hnd
    rcases List.mem_cons.mp hm with h1 | h1
    · obtain ⟨e1, e2⟩ := Prod.mk.injEq k1 v1 k v ▸ h1.symm
      subst e1
      subst e2
      simp [List.lookup]
    · have hne : ¬ k = k1 := by
        intro he
        subst he
        exact hnd.1 (List.mem_map.mpr ⟨(k, v), h1, rfl⟩)
      have he : (k == k1) = false := beq_eq_false_iff_ne.mpr hne
      simp only [List.lookup, he]
      exact ih k v hnd.2 h1

theorem mem_keys_nodup_inj :
    ∀ (vars : List (String × DataArr)) (k : String) (v1 v2 : DataArr),
      (vars.map Prod.fst).Nodup → (k, v1) ∈ vars → (k, v2) ∈ vars → v1 = v2 := by
  intro vars k v1 v2 hnd h1 h2
  have e1 := lookup_of_mem_nodup vars k v1 hnd h1
  have e2 := lookup_of_mem_nodup vars k v2 hnd h2
  rw [e1] at e2
  exact Option.some.inj e2

/-! Claim C1 — the mosaicker's first-valid-pixel rule. -/

/-- C1: for every non-empty list of datasets given to
`mosaic_spatial_take_first`, every spatial variable of the first dataset
and every pixel position, the output value is the value of the first
dataset in input order that is not NaN at that pixel, and `none` (NaN) when
every dataset is NaN there. -/
theorem mosaic_takes_first_valid (y_coord x_coord : String)
    (ds0 : Dataset) (rest : List Dataset) (k : String) (v : DataArr) (p : ℕ)
    (hk : ds0.vars.lookup k = some v)
    (hsp : isSpatialVar y_coord x_coord v = true)
    (hp : p < v.vals.length) :
    pixel (mosaic_spatial_take_first y_coord x_coord (ds0 :: rest)) k p
      = firstValid ((ds0 :: rest).map (fun ds => pixel ds k p)) := by
  cases rest with
  | nil =>
    cases hv : pixel ds0 k p with
    | none => simp [mosaic_spatial_take_first, firstValid, List.find?, hv]
    | some a => simp [mosaic_spatial_take_first, firstValid, List.find?, hv]
  | cons ds1 rest2 =>
    have hlook :=
      lookup_mosaic_vars y_coord x_coord (ds0 :: ds1 :: rest2) ds0.vars k v hk hsp
    have hv : dsVals k (mosaic_spatial_take_first y_coord x_coord (ds0 :: ds1 :: rest2))
        = (mosaicVar (ds0 :: ds1 :: rest2) k v).vals := by
      simp only [mosaic_spatial_take_first, dsVals, hlook]
    have hlen : p < ((List.range v.vals.length).map
        (chooseAt (ds0 :: ds1 :: rest2) k)).length := by
      simpa using hp
    rw [pixel, hv]
    show ((List.range v.vals.length).map (chooseAt (ds0 :: ds1 :: rest2) k)).getD p none = _
    rw [List.getD_eq_getElem _ _ hlen, List.getElem_map]
    simp only [List.getElem_range]
    show (stackAt (ds0 :: ds1 :: rest2) k p).getD
        (firstNonNanIndex (stackAt (ds0 :: ds1 :: rest2) k p)) none = _
    exact getD_firstNonNanIndex _ (by simp [stackAt])

/-- C1 witness: concrete 1×2 datasets; at pixel 0 both inputs are valid
with different values, and each input order wins its own mosaic; at pixel 1
the first dataset is NaN and the second one's value is taken. -/
theorem mosaic_takes_first_valid_witness :
    dsA.vars.lookup "B01" = some varA ∧ isSpatialVar "y" "x" varA = true ∧
    0 < varA.vals.length ∧
    pixel (mosaic_spatial_take_first "y" "x" [dsA, dsB]) "B01" 0 = some 1 ∧
    pixel (mosaic_spatial_take_first "y" "x" [dsB, dsA]) "B01" 0 = some 5 ∧
    pixel (mosaic_spatial_take_first "y" "x" [dsA, dsB]) "B01" 1 = some 6 :=
  ⟨by decide, by decide, by decide,
   (mosaic_takes_first_valid "y" "x" dsA [dsB] "B01" varA 0 (by decide) (by decide)
      (by decide)).trans (by decide),
   (mosaic_takes_first_valid "y" "x" dsB [dsA] "B01" varB 0 (by decide) (by decide)
      (by decide)).trans (by decide),
   (mosaic_takes_first_valid "y" "x" dsA [dsB] "B01" varA 1 (by decide) (by decide)
      (by decide)).trans (by decide)⟩

/-! Claim C7 — the solar-time offset. -/

/-- C7 counterexample: at longitude −20° the code adds
`int(-20 / 15) = -1` hour (−3600 s), not `floor(-20 / 15) = -2` hours
(−7200 s), so the claimed floor semantics fails for negative longitudes. -/
theorem solar_time_not_floor_at_neg20 :
    convert_to_solar_time 0 (-20) = -3600 ∧
    (0 : ℤ) + ⌊(-20 : ℚ) / 15⌋ * 3600 = -7200 ∧
    convert_to_solar_time 0 (-20) ≠ (0 : ℤ) + ⌊(-20 : ℚ) / 15⌋ * 3600 := by
  have hq : ((-20 : ℚ) / 15) = -(4 / 3) := by norm_num
  have hneg : ¬ (0 : ℚ) ≤ (-20 : ℚ) / 15 := by norm_num
  have hfloor : ⌊(-20 : ℚ) / 15⌋ = -2 := by
    rw [hq, Int.floor_neg, show ⌈(4 : ℚ) / 3⌉ = 2 by rw [Int.ceil_eq_iff]; norm_num]
  have hceil : ⌈(-20 : ℚ) / 15⌉ = -1 := by
    rw [hq, Int.ceil_neg, show ⌊(4 : ℚ) / 3⌋ = 1 by norm_num]
  refine ⟨?_, ?_, ?_⟩
  · rw [convert_to_solar_time, pyInt, if_neg hneg, hceil]
    norm_num
  · rw [hfloor]
    norm_num
  · rw [convert_to_solar_time, pyInt, if_neg hneg, hceil, hfloor]
    norm_num

/-- C7 (amended): the temporal normalizer adds
`int(longitude / 15)` whole hours to the UTC timestamp, where `int`
truncates toward zero: the offset is `floor(longitude / 15)` hours for
nonnegative longitudes and `ceil(longitude / 15)` hours for negative
ones. -/
theorem solar_time_truncates_toward_zero (utc : ℤ) (lon : ℚ) :
    (0 ≤ lon → convert_to_solar_time utc lon = utc + ⌊lon / 15⌋ * 3600) ∧
    (lon < 0 → convert_to_solar_time utc lon = utc + ⌈lon / 15⌉ * 3600) := by
  constructor
  · intro h
    have h15 : 0 ≤ lon / 15 := div_nonneg h (by norm_num)
    rw [convert_to_solar_time, pyInt, if_pos h15]
  · intro h
    have h15 : lon / 15 < 0 := div_neg_of_neg_of_pos h (by norm_num)
    rw [convert_to_solar_time, pyInt, if_neg (not_le.mpr h15)]

/-- C7 witness: the truncation theorem applied at longitudes 150.5° (the
repository's own test case, +10 h) and −20° (−1 h). -/
theorem solar_time_truncates_toward_zero_witness :
    convert_to_solar_time 0 150.5 = 0 + ⌊(150.5 : ℚ) / 15⌋ * 3600 ∧
    convert_to_solar_time 0 (-20) = 0 + ⌈(-20 : ℚ) / 15⌉ * 3600 :=
  ⟨(solar_time_truncates_toward_zero 0 150.5).1 (by norm_num),
   (solar_time_truncates_toward_zero 0 (-20)).2 (by norm_num)⟩

/-! Claims C9 and C10 — idempotence and variable selection of the mosaicker. -/

/-- C9 counterexample: `dsC` and `dsD` have the same variables and shapes
and `dsC` has no NaN pixel, yet `mosaic([dsC, dsD]) ≠ dsC`: the two-input
path keeps only variables with trailing spatial dims, so the non-spatial
variable `"t"` of `dsC` is dropped. -/
theorem mosaic_pair_not_identity :
    (dsC.vars.map (fun kv => (kv.1, kv.2.dims, kv.2.vals.length))
       = dsD.vars.map (fun kv => (kv.1, kv.2.dims, kv.2.vals.length))) ∧
    (∀ kv ∈ dsC.vars, ∀ w ∈ kv.2.vals, w.isSome = true) ∧
    mosaic_spatial_take_first "y" "x" [dsC, dsD] ≠ dsC :=
  ⟨by decide, by decide, by decide⟩

/-- C9 (amended): mosaicking a single dataset returns it unchanged, and
for a pair `[A, B]` the mosaic returns exactly `A` provided A has no NaN
pixel and, in addition, every variable of `A` has trailing spatial
dimensions (otherwise the non-spatial variables are dropped). -/
theorem mosaic_idempotent_amended :
    (∀ y_coord x_coord D, mosaic_spatial_take_first y_coord x_coord [D] = D) ∧
    (∀ y_coord x_coord A B,
      (A.vars.map Prod.fst).Nodup →
      (∀ kv ∈ A.vars, isSpatialVar y_coord x_coord kv.2 = true) →
      (∀ kv ∈ A.vars, ∀ w ∈ kv.2.vals, w.isSome = true) →
      mosaic_spatial_take_first y_coord x_coord [A, B] = A) := by
  constructor
  · intro y_coord x_coord D
    rfl
  · intro y_coord x_coord A B hnd hsp hnn
    show Dataset.mk ((A.vars.filter (fun kv => isSpatialVar y_coord x_coord kv.2)).map
        (fun kv => (kv.1, mosaicVar [A, B] kv.1 kv.2))) A.attrs = A
    rw [List.filter_eq_self.mpr hsp]
    have hmap : A.vars.map (fun kv => (kv.1, mosaicVar [A, B] kv.1 kv.2)) = A.vars := by
      have hpt : ∀ kv ∈ A.vars, (kv.1, mosaicVar [A, B] kv.1 kv.2) = kv := by
        intro kv hmem
        obtain ⟨k, v⟩ := kv
        have hvals : (List.range v.vals.length).map (chooseAt [A, B] k) = v.vals := by
          apply List.ext_getElem
          · simp
          · intro i h1 h2
            simp only [List.getElem_map, List.getElem_range]
            have hvA : dsVals k A = v.vals := by
              simp [dsVals, lookup_of_mem_nodup A.vars k v hnd hmem]
            have hpix : pixel A k i = v.vals[i] := by
              rw [pixel, hvA, List.getD_eq_getElem _ _ h2]
            have hs : (v.vals[i]).isSome = true :=
              hnn (k, v) hmem (v.vals[i]) (List.getElem_mem h2)
            show (stackAt [A, B] k i).getD (firstNonNanIndex (stackAt [A, B] k i)) none
              = v.vals[i]
            have hstack : stackAt [A, B] k i = [pixel A k i, pixel B k i] := rfl
            rw [hstack, hpix]
            have hidx : List.findIdx (fun w => w.isSome) [v.vals[i], pixel B k i] = 0 := by
              simp [List.findIdx_cons, hs]
            simp [firstNonNanIndex, hidx]
        show (k, mosaicVar [A, B] k v) = (k, v)
        rw [Prod.mk.injEq]
        refine ⟨rfl, ?_⟩
        show DataArr.mk v.dims v.dtype v.coords
            ((List.range v.vals.length).map (chooseAt [A, B] k)) v.attrs = v
        rw [hvals]
      calc A.vars.map (fun kv => (kv.1, mosaicVar [A, B] kv.1 kv.2))
          = A.vars.map id := List.map_congr_left hpt
        _ = A.vars := List.map_id A.vars
    rw [hmap]

/-- C9 witness: the amended theorem applied to the all-spatial, fully
valid dataset `dsE`, paired with `dsA`, together with the single-input
case. -/
theorem mosaic_idempotent_amended_witness :
    (dsE.vars.map Prod.fst).Nodup ∧
    (∀ kv ∈ dsE.vars, isSpatialVar "y" "x" kv.2 = true) ∧
    (∀ kv ∈ dsE.vars, ∀ w ∈ kv.2.vals, w.isSome = true) ∧
    mosaic_spatial_take_first "y" "x" [dsE, dsA] = dsE ∧
    mosaic_spatial_take_first "y" "x" [dsE] = dsE :=
  ⟨by decide, by decide, by decide,
   mosaic_idempotent_amended.2 "y" "x" dsE dsA (by decide) (by decide) (by decide),
   mosaic_idempotent_amended.1 "y" "x" dsE⟩

/-- C10: with two or more inputs the mosaic keeps exactly the variables of
the first dataset whose trailing dims are the spatial `(y, x)` pair — any
variable without trailing spatial dims is absent from the output — while
with exactly one input the dataset is returned unchanged, all variables
included. -/
theorem mosaic_keeps_only_spatial_vars (y_coord x_coord : String)
    (d0 d1 : Dataset) (rest : List Dataset)
    (hnd : (d0.vars.map Prod.fst).Nodup) :
    ((mosaic_spatial_take_first y_coord x_coord (d0 :: d1 :: rest)).vars.map Prod.fst
       = (d0.vars.filter (fun kv => isSpatialVar y_coord x_coord kv.2)).map Prod.fst) ∧
    (∀ kv ∈ d0.vars, isSpatialVar y_coord x_coord kv.2 = false →
       ∀ w, (kv.1, w) ∉ (mosaic_spatial_take_first y_coord x_coord (d0 :: d1 :: rest)).vars) ∧
    (∀ D, mosaic_spatial_take_first y_coord x_coord [D] = D) := by
  refine ⟨?_, ?_, fun D => rfl⟩
  · show ((d0.vars.filter (fun kv => isSpatialVar y_coord x_coord kv.2)).map
        (fun kv => (kv.1, mosaicVar (d0 :: d1 :: rest) kv.1 kv.2))).map Prod.fst = _
    rw [List.map_map]
    exact List.map_congr_left (fun a _ => rfl)
  · intro kv hmem hns w hw
    obtain ⟨kv', hkv', hfe⟩ := List.mem_map.mp hw
    have h1 : kv'.1 = kv.1 := by
      have h2 := congrArg Prod.fst hfe
      simpa using h2
    have hmem' : kv' ∈ d0.vars := List.mem_of_mem_filter hkv'
    have hsp' : isSpatialVar y_coord x_coord kv'.2 = true := by
      simpa using List.of_mem_filter hkv'
    have heq : kv'.2 = kv.2 := by
      apply mem_keys_nodup_inj d0.vars kv.1 kv'.2 kv.2 hnd
      · rw [← h1]
        exact hmem'
      · exact hmem
    rw [heq, hns] at hsp'
    exact Bool.false_ne_true hsp'

/-- C10 witness: on `[dsC, dsD]` only the spatial variable `"B01"`
survives and the non-spatial `"t"` is absent. -/
theorem mosaic_keeps_only_spatial_vars_witness :
    (dsC.vars.map Prod.fst).Nodup ∧
    (mosaic_spatial_take_first "y" "x" [dsC, dsD]).vars.map Prod.fst = ["B01"] ∧
    ("t", varT) ∉ (mosaic_spatial_take_first "y" "x" [dsC, dsD]).vars := by
  have h := mosaic_keeps_only_spatial_vars "y" "x" dsC dsD [] (by decide)
  exact ⟨by decide, h.1.trans (by decide), h.2.1 ("t", varT) (by decide) (by decide) varT⟩

/-! Helper lemmas about the scatter loop of the item groupers. -/

theorem set_map_update {α κ : Type} [DecidableEq κ] :
    ∀ (keys : List κ) (f : κ → List α) (k0 : κ) (g : List α → List α),
      keys.Nodup → k0 ∈ keys →
      ((keys.map f).set (keys.findIdx (fun k => decide (k = k0)))
          (g ((keys.map f).getD (keys.findIdx (fun k => decide (k = k0))) [])))
        = keys.map (fun k => if k = k0 then g (f k) else f k) := by
  intro keys
  induction keys with
  | nil => intro f k0 g _ hm; simp at hm
  | cons k ks ih =>
    intro f k0 g hnd hm
    rw [List.nodup_cons] at hnd
    by_cases he : k = k0
    · have hidx : List.findIdx (fun k => decide (k = k0)) (k :: ks) = 0 := by
        simp [List.findIdx_cons, he]
      rw [hidx]
      simp only [List.map_cons, List.set_cons_zero, List.getD_cons_zero]
      rw [if_pos he]
      have htl : ks.map (fun k => if k = k0 then g (f k) else f k) = ks.map f := by
        apply List.map_congr_left
        intro a ha
        rw [if_neg]
        intro hak
        rw [hak] at ha
        rw [← he] at ha
        exact hnd.1 ha
      rw [htl]
    · have hidx : List.findIdx (fun k => decide (k = k0)) (k :: ks)
          = List.findIdx (fun k => decide (k = k0)) ks + 1 := by
        simp [List.findIdx_cons, he]
      rw [hidx]
      simp only [List.map_cons, List.set_cons_succ, List.getD_cons_succ]
      rw [if_neg he]
      have hm2 : k0 ∈ ks := by
        rcases List.mem_cons.mp hm with h1 | h1
        · exact absurd h1.symm he
        · exact h1
      rw [ih f k0 g hnd.2 hm2]

theorem scatter_go {α κ : Type} [DecidableEq κ] (keys : List κ) (keyOf : α → κ)
    (hnd : keys.Nodup) :
    ∀ (items : List α) (f : κ → List α),
      (∀ it ∈ items, keyOf it ∈ keys) →
      items.foldl
        (fun cells it =>
          let i := keys.findIdx (fun k => decide (k = keyOf it))
          cells.set i (cells.getD i [] ++ [it]))
        (keys.map f)
      = keys.map (fun k => f k ++ items.filter (fun it => decide (keyOf it = k))) := by
  intro items
  induction items with
  | nil =>
    intro f _
    simp
  | cons it rest ih =>
    intro f hmem
    simp only [List.foldl_cons]
    have hstep : ((keys.map f).set (keys.findIdx (fun k => decide (k = keyOf it)))
          (((keys.map f).getD (keys.findIdx (fun k => decide (k = keyOf it))) []) ++ [it]))
        = keys.map (fun k => if k = keyOf it then f k ++ [it] else f k) :=
      set_map_update keys f (keyOf it) (fun l => l ++ [it]) hnd
        (hmem it (List.mem_cons_self it rest))
    rw [hstep]
    rw [ih (fun k => if k = keyOf it then f k ++ [it] else f k)
        (fun j hj => hmem j (List.mem_cons.mpr (Or.inr hj)))]
    apply List.map_congr_left
    intro k _
    rw [List.filter_cons]
    by_cases he : keyOf it = k
    · rw [if_pos he.symm, if_pos (by simp [he])]
      simp
    · rw [if_neg (fun hx => he hx.symm), if_neg (by simp [he])]

theorem scatter_eq_filter {α κ : Type} [DecidableEq κ] (keys : List κ) (keyOf : α → κ)
    (items : List α) (hnd : keys.Nodup) (hmem : ∀ it ∈ items, keyOf it ∈ keys) :
    scatter keys keyOf items
      = keys.map (fun k => items.filter (fun it => decide (keyOf it = k))) := by
  have h := scatter_go keys keyOf hnd items (fun _ => []) hmem
  simpa [scatter] using h

/-! Helper lemmas about `numpy.unique`. -/

theorem sortedUniqueInt_nodup (l : List ℤ) : (sortedUniqueInt l).Nodup :=
  List.nodup_dedup _

theorem mem_sortedUniqueInt {l : List ℤ} {x : ℤ} : x ∈ sortedUniqueInt l ↔ x ∈ l := by
  unfold sortedUniqueInt
  rw [List.mem_dedup, (List.perm_insertionSort (· ≤ ·) l).mem_iff]

theorem sortedUniqueStr_nodup (l : List String) : (sortedUniqueStr l).Nodup :=
  List.nodup_dedup _

theorem mem_sortedUniqueStr {l : List String} {x : String} :
    x ∈ sortedUniqueStr l ↔ x ∈ l := by
  unfold sortedUniqueStr
  rw [List.mem_dedup, (List.perm_insertionSort (fun s t => strLe s t = true) l).mem_iff]

/-! Helper lemmas about the row-major product key grid. -/

theorem productKeys_nodup (dates : List ℤ) (tiles : List String)
    (h1 : dates.Nodup) (h2 : tiles.Nodup) : (Sentinel2.productKeys dates tiles).Nodup :=
  List.Nodup.product h1 h2

theorem mem_productKeys {dates : List ℤ} {tiles : List String} {a : ℤ} {b : String} :
    (a, b) ∈ Sentinel2.productKeys dates tiles ↔ a ∈ dates ∧ b ∈ tiles :=
  List.mem_product

theorem flatMap_block {α β : Type} (f : α → List β) (T : ℕ)
    (hT : ∀ a, (f a).length = T) :
    ∀ (l : List α) (i : ℕ) (h : i < l.length),
      ((l.flatMap f).drop (i * T)).take T = f l[i] := by
  intro l
  induction l with
  | nil => intro i h; simp at h
  | cons a as ih =>
    intro i h
    cases i with
    | zero =>
      simp only [Nat.zero_mul, List.drop_zero, List.flatMap_cons, List.getElem_cons_zero]
      exact List.take_left' (hT a)
    | succ j =>
      have harith : (j + 1) * T = T + j * T := by ring
      rw [List.flatMap_cons, harith, ← List.drop_drop, List.drop_left' (hT a)]
      simp only [List.getElem_cons_succ]
      exact ih j (by simpa using h)

/-! Characterizations of the two group indexes. -/

theorem s2_cells_eq (items : List Item) :
    (Sentinel2.group_items items).cells
      = (Sentinel2.productKeys (sortedUniqueInt (items.map Sentinel2.itemDate))
          (sortedUniqueStr (items.map Item.tile))).map
          (fun k => items.filter (fun it => decide (Sentinel2.itemKey it = k))) := by
  show scatter (Sentinel2.productKeys (sortedUniqueInt (items.map Sentinel2.itemDate))
      (sortedUniqueStr (items.map Item.tile))) Sentinel2.itemKey items = _
  apply scatter_eq_filter
  · exact productKeys_nodup _ _ (sortedUniqueInt_nodup _) (sortedUniqueStr_nodup _)
  · intro it hit
    show (Sentinel2.itemDate it, it.tile) ∈ _
    rw [mem_productKeys]
    exact ⟨mem_sortedUniqueInt.mpr (List.mem_map_of_mem _ hit),
      mem_sortedUniqueStr.mpr (List.mem_map_of_mem _ hit)⟩

theorem s3_cells_eq (items : List Item) :
    (Sentinel3.group_items items).cells
      = (sortedUniqueInt ((Sentinel3.filter_acquisition_time items).map Sentinel3.itemDate)).map
          (fun d => (Sentinel3.filter_acquisition_time items).filter
            (fun it => decide (Sentinel3.itemDate it = d))) := by
  show scatter (sortedUniqueInt ((Sentinel3.filter_acquisition_time items).map Sentinel3.itemDate))
      Sentinel3.itemDate (Sentinel3.filter_acquisition_time items) = _
  apply scatter_eq_filter
  · exact sortedUniqueInt_nodup _
  · intro it hit
    exact mem_sortedUniqueInt.mpr (List.mem_map_of_mem _ hit)

/-! Counting helpers for the flatten-recovers-input property. -/

theorem sum_map_single {κ : Type} [DecidableEq κ] :
    ∀ (keys : List κ) (k0 : κ) (n : ℕ), keys.Nodup → k0 ∈ keys →
      (keys.map (fun k => if k = k0 then n else 0)).sum = n := by
  intro keys
  induction keys with
  | nil => intro k0 n _ hm; simp at hm
  | cons k ks ih =>
    intro k0 n hnd hm
    rw [List.nodup_cons] at hnd
    simp only [List.map_cons, List.sum_cons]
    by_cases he : k = k0
    · rw [if_pos he]
      have hz : (ks.map (fun k => if k = k0 then n else 0)).sum = 0 := by
        apply List.sum_eq_zero
        intro x hx
        obtain ⟨k', hk', he2⟩ := List.mem_map.mp hx
        rw [← he2, if_neg]
        intro h2
        rw [h2, ← he] at hk'
        exact hnd.1 hk'
      rw [hz]
      omega
    · rw [if_neg he]
      have hm2 : k0 ∈ ks := by
        rcases List.mem_cons.mp hm with h1 | h1
        · exact absurd h1.symm he
        · exact h1
      rw [ih k0 n hnd.2 hm2]
      simp

theorem flatten_map_filter_perm {α κ : Type} [DecidableEq α] [DecidableEq κ]
    (keys : List κ) (keyOf : α → κ) (items : List α)
    (hnd : keys.Nodup) (hmem : ∀ it ∈ items, keyOf it ∈ keys) :
    ((keys.map (fun k => items.filter (fun it => decide (keyOf it = k)))).flatten).Perm
      items := by
  rw [List.perm_iff_count]
  intro a
  rw [List.count_flatten, List.map_map]
  have hpt : ∀ k ∈ keys,
      (List.count a ∘ fun k => items.filter (fun it => decide (keyOf it = k))) k
        = if k = keyOf a then List.count a items else 0 := by
    intro k _
    simp only [Function.comp_apply]
    by_cases he : k = keyOf a
    · rw [if_pos he]
      apply List.count_filter
      simp [he]
    · rw [if_neg he]
      apply List.count_eq_zero.mpr
      intro hmem2
      have hp := List.of_mem_filter hmem2
      simp only [decide_eq_true_eq] at hp
      exact he hp.symm
  rw [List.map_congr_left hpt]
  by_cases ha : a ∈ items
  · exact sum_map_single keys (keyOf a) (List.count a items) hnd (hmem a ha)
  · have hz : List.count a items = 0 := List.count_eq_zero.mpr ha
    rw [hz]
    apply List.sum_eq_zero
    intro x hx
    obtain ⟨k', _, he2⟩ := List.mem_map.mp hx
    rw [← he2]
    simp

/-! Claims C5 and C6 — cell contents of the group index. -/

/-- C5 counterexample: three items sharing one (date, tile) key all land
in the same cell of the Sentinel-2 group index, which then holds three
items — there is no cap of 2 per cell (and no warning mechanism exists in
the grouping code). -/
theorem group_cell_holds_three_items :
    ((Sentinel2.group_items [k1, k2, k3]).cells.getD 0 []).length = 3 ∧ 2 < 3 := by
  refine ⟨?_, by norm_num⟩
  have triple : ∀ d : ℤ, sortedUniqueInt [d, d, d] = [d] := fun d => by
    simp [sortedUniqueInt, List.insertionSort, List.orderedInsert]
  have hfil : [k1, k2, k3].filter
      (fun it => decide (Sentinel2.itemKey it = (Sentinel2.itemDate k1, "T1")))
      = [k1, k2, k3] := by
    apply List.filter_eq_self.mpr
    intro a ha
    rcases List.mem_cons.mp ha with h | h
    · rw [h]; exact decide_eq_true rfl
    rcases List.mem_cons.mp h with h2 | h2
    · rw [h2]; exact decide_eq_true rfl
    rcases List.mem_cons.mp h2 with h3 | h3
    · rw [h3]; exact decide_eq_true rfl
    · simp at h3
  rw [s2_cells_eq]
  rw [show [k1, k2, k3].map Sentinel2.itemDate
      = [Sentinel2.itemDate k1, Sentinel2.itemDate k1, Sentinel2.itemDate k1] from rfl]
  rw [triple]
  rw [show sortedUniqueStr ([k1, k2, k3].map Item.tile) = ["T1"] from by decide]
  rw [show Sentinel2.productKeys [Sentinel2.itemDate k1] ["T1"]
      = [(Sentinel2.itemDate k1, "T1")] from rfl]
  simp only [List.map_cons, List.map_nil, List.getD_cons_zero]
  rw [hfil]
  rfl

/-- C5 (amended): each cell of the Sentinel-2 (date, tile) group index
holds the full input-order list of the items carrying that cell's key: the
code places every item in its cell with no cap and no truncation warning. -/
theorem group_cells_hold_all_items (items : List Item) :
    (Sentinel2.group_items items).cells
      = (Sentinel2.productKeys (Sentinel2.group_items items).dates
          (Sentinel2.group_items items).tile_ids).map
          (fun k => items.filter (fun it => decide (Sentinel2.itemKey it = k))) :=
  s2_cells_eq items

/-- C6: flattening the group index recovers exactly the input multiset of
items: the Sentinel-2 (date, tile) scatter partitions the input, and the
Sentinel-3 date scatter partitions the deduplicated input (deduplication
runs inside `group_items` before grouping).  No truncation occurs. -/
theorem group_items_flatten_perm (items : List Item) :
    ((Sentinel2.group_items items).cells.flatten).Perm items ∧
    ((Sentinel3.group_items items).cells.flatten).Perm
      (Sentinel3.filter_acquisition_time items) := by
  constructor
  · rw [s2_cells_eq]
    apply flatten_map_filter_perm
    · exact productKeys_nodup _ _ (sortedUniqueInt_nodup _) (sortedUniqueStr_nodup _)
    · intro it hit
      show (Sentinel2.itemDate it, it.tile) ∈ _
      rw [mem_productKeys]
      exact ⟨mem_sortedUniqueInt.mpr (List.mem_map_of_mem _ hit),
        mem_sortedUniqueStr.mpr (List.mem_map_of_mem _ hit)⟩
  · rw [s3_cells_eq]
    apply flatten_map_filter_perm
    · exact sortedUniqueInt_nodup _
    · intro it hit
      exact mem_sortedUniqueInt.mpr (List.mem_map_of_mem _ hit)

/-! Claim C2 — the representative time coordinate of each date bucket. -/

theorem s2_row_eq (items : List Item) (i : ℕ)
    (hi : i < (sortedUniqueInt (items.map Sentinel2.itemDate)).length) :
    Sentinel2.rowCells (Sentinel2.group_items items).cells
        (sortedUniqueStr (items.map Item.tile)).length i
      = (sortedUniqueStr (items.map Item.tile)).map
          (fun t => items.filter (fun it => decide (Sentinel2.itemKey it
            = ((sortedUniqueInt (items.map Sentinel2.itemDate))[i], t)))) := by
  rw [Sentinel2.rowCells, s2_cells_eq]
  rw [← List.map_drop, ← List.map_take]
  have hb := flatMap_block
    (fun d => (sortedUniqueStr (items.map Item.tile)).map (fun t => (d, t)))
    (sortedUniqueStr (items.map Item.tile)).length
    (fun a => by simp)
    (sortedUniqueInt (items.map Sentinel2.itemDate)) i hi
  rw [show Sentinel2.productKeys (sortedUniqueInt (items.map Sentinel2.itemDate))
        (sortedUniqueStr (items.map Item.tile))
      = (sortedUniqueInt (items.map Sentinel2.itemDate)).flatMap
          (fun d => (sortedUniqueStr (items.map Item.tile)).map (fun t => (d, t))) from rfl]
  rw [hb, List.map_map]
  exact List.map_congr_left (fun t _ => rfl)

/-- C2 (amended): the time coordinate of each date bucket is, for the
tiled Sentinel-2 grouper, the NOMINAL datetime of the first item found for
that date scanning tile order; but for the Sentinel-3 grouper it is the
original UTC datetime (`item.datetime`), not the nominal one, of the first
item of the bucket. -/
theorem group_time_coordinate (items : List Item) (i : ℕ) :
    (i < (Sentinel2.group_items items).dates.length →
      (Sentinel2.group_items items).times.getD i 0
        = ((((sortedUniqueStr (items.map Item.tile)).map
              (fun t => items.filter (fun it => decide (Sentinel2.itemKey it
                = ((Sentinel2.group_items items).dates.getD i 0, t))))).flatten.head?).map
            datetime_nominal).getD 0) ∧
    (i < (Sentinel3.group_items items).dates.length →
      (Sentinel3.group_items items).times.getD i 0
        = ((((Sentinel3.filter_acquisition_time items).filter
              (fun it => decide (Sentinel3.itemDate it
                = (Sentinel3.group_items items).dates.getD i 0))).head?).map
            Item.datetime).getD 0) := by
  constructor
  · intro hi
    have hi2 : i < (sortedUniqueInt (items.map Sentinel2.itemDate)).length := hi
    have e1 : (Sentinel2.group_items items).times.getD i 0
        = Sentinel2.repTime (Sentinel2.rowCells (Sentinel2.group_items items).cells
            (sortedUniqueStr (items.map Item.tile)).length i) := by
      show ((List.range (sortedUniqueInt (items.map Sentinel2.itemDate)).length).map
          (fun n => Sentinel2.repTime (Sentinel2.rowCells (Sentinel2.group_items items).cells
            (sortedUniqueStr (items.map Item.tile)).length n))).getD i 0 = _
      rw [List.getD_eq_getElem _ _ (by simpa using hi2), List.getElem_map,
        List.getElem_range]
    have e2 : (Sentinel2.group_items items).dates.getD i 0
        = (sortedUniqueInt (items.map Sentinel2.itemDate))[i] :=
      List.getD_eq_getElem _ _ hi2
    have hrep : ∀ row : List (List Item),
        Sentinel2.repTime row = ((row.flatten.head?).map datetime_nominal).getD 0 := by
      intro row
      cases hf : row.flatten with
      | nil => simp [Sentinel2.repTime, hf]
      | cons a l => simp [Sentinel2.repTime, hf]
    rw [e1, s2_row_eq items i hi2, e2, hrep]
  · intro hi
    have hi2 : i < (sortedUniqueInt
        ((Sentinel3.filter_acquisition_time items).map Sentinel3.itemDate)).length := hi
    have e1 : (Sentinel3.group_items items).times.getD i 0
        = Sentinel3.repTime ((Sentinel3.group_items items).cells.getD i []) := by
      show ((List.range (sortedUniqueInt
          ((Sentinel3.filter_acquisition_time items).map Sentinel3.itemDate)).length).map
          (fun n => Sentinel3.repTime ((Sentinel3.group_items items).cells.getD n []))).getD i 0
          = _
      rw [List.getD_eq_getElem _ _ (by simpa using hi2), List.getElem_map,
        List.getElem_range]
    have e2 : (Sentinel3.group_items items).dates.getD i 0
        = (sortedUniqueInt ((Sentinel3.filter_acquisition_time items).map
            Sentinel3.itemDate))[i] :=
      List.getD_eq_getElem _ _ hi2
    have e3 : (Sentinel3.group_items items).cells.getD i []
        = (Sentinel3.filter_acquisition_time items).filter
            (fun it => decide (Sentinel3.itemDate it
              = (sortedUniqueInt ((Sentinel3.filter_acquisition_time items).map
                  Sentinel3.itemDate))[i])) := by
      rw [s3_cells_eq]
      rw [List.getD_eq_getElem _ _ (by simpa using hi2), List.getElem_map]
    have hrep : ∀ cell : List Item,
        Sentinel3.repTime cell = ((cell.head?).map Item.datetime).getD 0 := by
      intro cell
      cases cell with
      | nil => simp [Sentinel3.repTime]
      | cons a l => simp [Sentinel3.repTime]
    rw [e1, e3, e2, hrep]

/-- C2 counterexample: for the single Sentinel-3 item `cS3`, whose solar
offset is +2 h, the assigned time coordinate is the UTC datetime 1000
(`item.datetime`), not the nominal datetime 8200 claimed by the spec. -/
theorem group_time_not_nominal :
    (Sentinel3.group_items [cS3]).times = [cS3.datetime] ∧
    cS3.datetime = 1000 ∧ datetime_nominal cS3 = 8200 ∧
    (Sentinel3.group_items [cS3]).times ≠ [datetime_nominal cS3] := by
  have hdedup : Sentinel3.filter_acquisition_time [cS3] = [cS3] := by decide
  have single : ∀ d : ℤ, sortedUniqueInt [d] = [d] := fun d => by
    simp [sortedUniqueInt, List.insertionSort, List.orderedInsert]
  have hnom : datetime_nominal cS3 = 8200 := by
    show convert_to_solar_time 1000 ((29 + 31) / 2) = 8200
    rw [convert_to_solar_time, pyInt,
      if_pos (by norm_num : (0 : ℚ) ≤ (29 + 31) / 2 / 15)]
    norm_num
  have hdates : (Sentinel3.group_items [cS3]).dates = [Sentinel3.itemDate cS3] := by
    show sortedUniqueInt ((Sentinel3.filter_acquisition_time [cS3]).map Sentinel3.itemDate)
      = _
    rw [hdedup]
    exact single _
  have hcells : (Sentinel3.group_items [cS3]).cells = [[cS3]] := by
    rw [s3_cells_eq, hdedup]
    rw [show [cS3].map Sentinel3.itemDate = [Sentinel3.itemDate cS3] from rfl, single]
    simp only [List.map_cons, List.map_nil]
    rw [show [cS3].filter
        (fun it => decide (Sentinel3.itemDate it = Sentinel3.itemDate cS3)) = [cS3] from by
      rw [List.filter_cons, if_pos (decide_eq_true rfl)]
      rfl]
  have htimes : (Sentinel3.group_items [cS3]).times = [cS3.datetime] := by
    have e0 : (Sentinel3.group_items [cS3]).times
        = (List.range (Sentinel3.group_items [cS3]).dates.length).map
            (fun n => Sentinel3.repTime ((Sentinel3.group_items [cS3]).cells.getD n [])) :=
      rfl
    rw [e0, hdates, hcells]
    rfl
  refine ⟨htimes, rfl, hnom, ?_⟩
  rw [htimes, hnom]
  intro hcon
  have h1 : cS3.datetime = 8200 := (List.cons.inj hcon).1
  exact absurd h1 (by decide)

/-- C2 witness: with Sentinel-2 items `[j1, j2]` sharing one nominal date,
on tiles `"T2"` and `"T1"` respectively, the bucket's time coordinate is
the nominal datetime 7400 of `j2` — the first item scanning tile order,
although `j1` comes first in input order; for the Sentinel-3 item `cS3`
the time coordinate is its UTC datetime. -/
theorem group_time_coordinate_witness :
    0 < (Sentinel2.group_items [j1, j2]).dates.length ∧
    (Sentinel2.group_items [j1, j2]).times.getD 0 0 = datetime_nominal j2 ∧
    datetime_nominal j2 = 7400 ∧ j2.datetime = 200 ∧
    0 < (Sentinel3.group_items [cS3]).dates.length ∧
    (Sentinel3.group_items [cS3]).times.getD 0 0 = cS3.datetime := by
  have nom1 : datetime_nominal j1 = 7300 := by
    show convert_to_solar_time 100 ((29 + 31) / 2) = 7300
    rw [convert_to_solar_time, pyInt,
      if_pos (by norm_num : (0 : ℚ) ≤ (29 + 31) / 2 / 15)]
    norm_num
  have nom2 : datetime_nominal j2 = 7400 := by
    show convert_to_solar_time 200 ((29 + 31) / 2) = 7400
    rw [convert_to_solar_time, pyInt,
      if_pos (by norm_num : (0 : ℚ) ≤ (29 + 31) / 2 / 15)]
    norm_num
  have d1 : Sentinel2.itemDate j1 = 0 := by
    show dayOf (datetime_nominal j1) = 0
    rw [nom1]
    decide
  have d2 : Sentinel2.itemDate j2 = 0 := by
    show dayOf (datetime_nominal j2) = 0
    rw [nom2]
    decide
  have hdates : (Sentinel2.group_items [j1, j2]).dates = [0] := by
    show sortedUniqueInt ([j1, j2].map Sentinel2.itemDate) = [0]
    rw [show [j1, j2].map Sentinel2.itemDate
        = [Sentinel2.itemDate j1, Sentinel2.itemDate j2] from rfl, d1, d2]
    decide
  have hlen : 0 < (Sentinel2.group_items [j1, j2]).dates.length := by
    rw [hdates]
    decide
  have key1 : Sentinel2.itemKey j1 = ((0 : ℤ), "T2") := by
    show (Sentinel2.itemDate j1, "T2") = ((0 : ℤ), "T2")
    rw [d1]
  have key2 : Sentinel2.itemKey j2 = ((0 : ℤ), "T1") := by
    show (Sentinel2.itemDate j2, "T1") = ((0 : ℤ), "T1")
    rw [d2]
  have c11 : decide (Sentinel2.itemKey j1 = ((0 : ℤ), "T1")) = false := by
    simp only [key1]
    decide
  have c21 : decide (Sentinel2.itemKey j2 = ((0 : ℤ), "T1")) = true := by
    simp only [key2]
    decide
  have c12 : decide (Sentinel2.itemKey j1 = ((0 : ℤ), "T2")) = true := by
    simp only [key1]
    decide
  have c22 : decide (Sentinel2.itemKey j2 = ((0 : ℤ), "T2")) = false := by
    simp only [key2]
    decide
  have f1 : [j1, j2].filter (fun it => decide (Sentinel2.itemKey it = ((0 : ℤ), "T1")))
      = [j2] := by
    simp only [List.filter_cons, List.filter_nil, c11, c21]
    simp
  have f2 : [j1, j2].filter (fun it => decide (Sentinel2.itemKey it = ((0 : ℤ), "T2")))
      = [j1] := by
    simp only [List.filter_cons, List.filter_nil, c12, c22]
    simp
  have htiles : sortedUniqueStr ([j1, j2].map Item.tile) = ["T1", "T2"] := by decide
  have hd0 : (Sentinel2.group_items [j1, j2]).dates.getD 0 0 = 0 := by
    rw [hdates]
    rfl
  have h := (group_time_coordinate [j1, j2] 0).1 hlen
  rw [htiles, hd0] at h
  simp only [List.map_cons, List.map_nil, f1, f2] at h
  simp at h
  -- Sentinel-3 half
  have hdedup : Sentinel3.filter_acquisition_time [cS3] = [cS3] := by decide
  have single : ∀ d : ℤ, sortedUniqueInt [d] = [d] := fun d => by
    simp [sortedUniqueInt, List.insertionSort, List.orderedInsert]
  have hdates3 : (Sentinel3.group_items [cS3]).dates = [Sentinel3.itemDate cS3] := by
    show sortedUniqueInt ((Sentinel3.filter_acquisition_time [cS3]).map Sentinel3.itemDate)
      = _
    rw [hdedup]
    exact single _
  have hlen3 : 0 < (Sentinel3.group_items [cS3]).dates.length := by
    rw [hdates3]
    decide
  have hd03 : (Sentinel3.group_items [cS3]).dates.getD 0 0 = Sentinel3.itemDate cS3 := by
    rw [hdates3]
    rfl
  have h3 := (group_time_coordinate [cS3] 0).2 hlen3
  rw [hdedup, hd03] at h3
  rw [show [cS3].filter
      (fun it => decide (Sentinel3.itemDate it = Sentinel3.itemDate cS3)) = [cS3] from by
    rw [List.filter_cons, if_pos (decide_eq_true rfl)]
    rfl] at h3
  simp at h3
  exact ⟨hlen, by simpa using h, nom2, rfl, hlen3, by simpa using h3⟩

/-! Helper lemmas about the deduplicator's base-id grouping. -/

theorem insertGroup_keys (b : String) (it : Item) :
    ∀ acc : List (String × List Item),
      (Sentinel3.insertGroup acc b it).map Prod.fst
        = if b ∈ acc.map Prod.fst then acc.map Prod.fst
          else acc.map Prod.fst ++ [b] := by
  intro acc
  induction acc with
  | nil => simp [Sentinel3.insertGroup]
  | cons kv rest ih =>
    obtain ⟨k, l⟩ := kv
    by_cases he : k = b
    · rw [show Sentinel3.insertGroup ((k, l) :: rest) b it
          = (k, l ++ [it]) :: rest from by simp [Sentinel3.insertGroup, he]]
      simp only [List.map_cons]
      rw [if_pos (List.mem_cons.mpr (Or.inl he.symm))]
    · rw [show Sentinel3.insertGroup ((k, l) :: rest) b it
          = (k, l) :: Sentinel3.insertGroup rest b it from by
        simp [Sentinel3.insertGroup, he]]
      simp only [List.map_cons, ih]
      by_cases hm : b ∈ rest.map Prod.fst
      · rw [if_pos hm, if_pos (List.mem_cons.mpr (Or.inr hm))]
      · rw [if_neg hm, if_neg (by
          intro hcon
          rcases List.mem_cons.mp hcon with h1 | h1
          · exact he h1.symm
          · exact hm h1)]
        simp

theorem groupByBase_go_keys_nodup :
    ∀ (items : List Item) (acc : List (String × List Item)),
      (acc.map Prod.fst).Nodup →
      ((items.foldl (fun acc it =>
          Sentinel3.insertGroup acc (Sentinel3.get_base_id it.id) it) acc).map
        Prod.fst).Nodup := by
  intro items
  induction items with
  | nil => intro acc h; simpa using h
  | cons it rest ih =>
    intro acc h
    simp only [List.foldl_cons]
    apply ih
    rw [insertGroup_keys]
    by_cases hm : Sentinel3.get_base_id it.id ∈ acc.map Prod.fst
    · rw [if_pos hm]
      exact h
    · rw [if_neg hm]
      rw [← List.concat_eq_append]
      exact List.Nodup.concat hm h

theorem groupByBase_keys_nodup (items : List Item) :
    ((Sentinel3.groupByBase items).map Prod.fst).Nodup :=
  groupByBase_go_keys_nodup items [] List.nodup_nil

theorem insertGroup_mem_base (b : String) (it : Item)
    (hb : Sentinel3.get_base_id it.id = b) :
    ∀ acc : List (String × List Item),
      (∀ kg ∈ acc, ∀ i ∈ kg.2, Sentinel3.get_base_id i.id = kg.1) →
      ∀ kg ∈ Sentinel3.insertGroup acc b it, ∀ i ∈ kg.2,
        Sentinel3.get_base_id i.id = kg.1 := by
  intro acc
  induction acc with
  | nil =>
    intro _ kg hkg i hi
    simp only [Sentinel3.insertGroup, List.mem_singleton] at hkg
    rw [hkg] at hi ⊢
    simp only [List.mem_singleton] at hi
    rw [hi, hb]
  | cons kv rest ih =>
    intro hacc kg hkg i hi
    obtain ⟨k, l⟩ := kv
    by_cases he : k = b
    · rw [show Sentinel3.insertGroup ((k, l) :: rest) b it
          = (k, l ++ [it]) :: rest from by simp [Sentinel3.insertGroup, he]] at hkg
      rcases List.mem_cons.mp hkg with h1 | h1
      · rw [h1] at hi ⊢
        rcases List.mem_append.mp hi with h2 | h2
        · exact hacc (k, l) (List.mem_cons_self _ _) i h2
        · simp only [List.mem_singleton] at h2
          rw [h2, hb, he]
      · exact hacc kg (List.mem_cons.mpr (Or.inr h1)) i hi
    · rw [show Sentinel3.insertGroup ((k, l) :: rest) b it
          = (k, l) :: Sentinel3.insertGroup rest b it from by
        simp [Sentinel3.insertGroup, he]] at hkg
      rcases List.mem_cons.mp hkg with h1 | h1
      · rw [h1] at hi ⊢
        exact hacc (k, l) (List.mem_cons_self _ _) i hi
      · exact ih (fun kg2 hkg2 => hacc kg2 (List.mem_cons.mpr (Or.inr hkg2))) kg h1 i hi

theorem groupByBase_go_mem_base :
    ∀ (items : List Item) (acc : List (String × List Item)),
      (∀ kg ∈ acc, ∀ i ∈ kg.2, Sentinel3.get_base_id i.id = kg.1) →
      ∀ kg ∈ items.foldl (fun acc it =>
          Sentinel3.insertGroup acc (Sentinel3.get_base_id it.id) it) acc,
        ∀ i ∈ kg.2, Sentinel3.get_base_id i.id = kg.1 := by
  intro items
  induction items with
  | nil => intro acc h; simpa using h
  | cons it rest ih =>
    intro acc h
    simp only [List.foldl_cons]
    exact ih _ (insertGroup_mem_base (Sentinel3.get_base_id it.id) it rfl acc h)

theorem groupByBase_mem_base (items : List Item) :
    ∀ kg ∈ Sentinel3.groupByBase items, ∀ i ∈ kg.2,
      Sentinel3.get_base_id i.id = kg.1 :=
  groupByBase_go_mem_base items [] (by simp)

theorem pyMaxBy_mem (key : Item → String) (l : List Item) (it : Item)
    (h : Sentinel3.pyMaxBy key l = some it) : it ∈ l := by
  cases l with
  | nil => simp [Sentinel3.pyMaxBy] at h
  | cons x xs =>
    have hm := foldl_max_mem key xs x
    simp only [Sentinel3.pyMaxBy] at h
    exact (Option.some.inj h) ▸ hm

theorem pickFromGroup_mem (g : List Item) (it : Item)
    (h : Sentinel3.pickFromGroup g = some it) : it ∈ g := by
  by_cases hnt : (g.filter (fun i => Sentinel3.containsSub "_NT_" i.id)).isEmpty = true
  · by_cases hnr : (g.filter (fun i => Sentinel3.containsSub "_NR_" i.id)).isEmpty = true
    · simp [Sentinel3.pickFromGroup, hnt, hnr] at h
    · have h2 : Sentinel3.pyMaxBy Sentinel3.lastTsOf
          (g.filter (fun i => Sentinel3.containsSub "_NR_" i.id)) = some it := by
        simpa [Sentinel3.pickFromGroup, hnt, hnr] using h
      exact List.mem_of_mem_filter (pyMaxBy_mem _ _ _ h2)
  · have h2 : Sentinel3.pyMaxBy Sentinel3.lastTsOf
        (g.filter (fun i => Sentinel3.containsSub "_NT_" i.id)) = some it := by
      simpa [Sentinel3.pickFromGroup, hnt] using h
    exact List.mem_of_mem_filter (pyMaxBy_mem _ _ _ h2)

theorem filterMap_pick_count (gs : List (String × List Item)) :
    (gs.map Prod.fst).Nodup →
    (∀ kg ∈ gs, ∀ i ∈ kg.2, Sentinel3.get_base_id i.id = kg.1) →
    ∀ b, ((gs.filterMap (fun bg => Sentinel3.pickFromGroup bg.2)).filter
      (fun i => decide (Sentinel3.get_base_id i.id = b))).length ≤ 1 := by
  induction gs with
  | nil => intro _ _ b; simp
  | cons kg rest ih =>
    intro hnd hbase b
    simp only [List.map_cons, List.nodup_cons] at hnd
    have hrest := ih hnd.2 (fun kg2 h2 => hbase kg2 (List.mem_cons.mpr (Or.inr h2)))
    simp only [List.filterMap_cons]
    cases hp : Sentinel3.pickFromGroup kg.2 with
    | none => exact hrest b
    | some it =>
      have hbit : Sentinel3.get_base_id it.id = kg.1 :=
        hbase kg (List.mem_cons_self _ _) it (pickFromGroup_mem kg.2 it hp)
      rw [List.filter_cons]
      by_cases hkb : Sentinel3.get_base_id it.id = b
      · rw [if_pos (by simp [hkb])]
        have hz : (rest.filterMap (fun bg => Sentinel3.pickFromGroup bg.2)).filter
            (fun i => decide (Sentinel3.get_base_id i.id = b)) = [] := by
          rw [List.filter_eq_nil_iff]
          intro j hj
          obtain ⟨kg2, hkg2, hp2⟩ := List.mem_filterMap.mp hj
          have hbj : Sentinel3.get_base_id j.id = kg2.1 :=
            hbase kg2 (List.mem_cons.mpr (Or.inr hkg2)) j (pickFromGroup_mem kg2.2 j hp2)
          simp only [decide_eq_true_eq]
          intro hcon
          apply hnd.1
          have hk12 : kg.1 = kg2.1 := by rw [← hbit, hkb, ← hcon, hbj]
          rw [hk12]
          exact List.mem_map_of_mem Prod.fst hkg2
        rw [hz]
        simp
      · rw [if_neg (by simp [hkb])]
        exact hrest b

theorem pickFromGroup_spec (g : List Item) :
    (g.filter (fun i => Sentinel3.containsSub "_NT_" i.id) ≠ [] →
      ∃ it, Sentinel3.pickFromGroup g = some it ∧
        it ∈ g.filter (fun i => Sentinel3.containsSub "_NT_" i.id) ∧
        ∀ j ∈ g.filter (fun i => Sentinel3.containsSub "_NT_" i.id),
          strLt (Sentinel3.lastTsOf it) (Sentinel3.lastTsOf j) = false) ∧
    (g.filter (fun i => Sentinel3.containsSub "_NT_" i.id) = [] →
      g.filter (fun i => Sentinel3.containsSub "_NR_" i.id) ≠ [] →
      ∃ it, Sentinel3.pickFromGroup g = some it ∧
        it ∈ g.filter (fun i => Sentinel3.containsSub "_NR_" i.id) ∧
        ∀ j ∈ g.filter (fun i => Sentinel3.containsSub "_NR_" i.id),
          strLt (Sentinel3.lastTsOf it) (Sentinel3.lastTsOf j) = false) ∧
    (g.filter (fun i => Sentinel3.containsSub "_NT_" i.id) = [] →
      g.filter (fun i => Sentinel3.containsSub "_NR_" i.id) = [] →
      Sentinel3.pickFromGroup g = none) := by
  refine ⟨?_, ?_, ?_⟩
  · intro hnt
    obtain ⟨it, hit, hmem, hmax⟩ := pyMaxBy_spec Sentinel3.lastTsOf _ hnt
    refine ⟨it, ?_, hmem, hmax⟩
    have hne : (g.filter (fun i => Sentinel3.containsSub "_NT_" i.id)).isEmpty = false := by
      cases hc : (g.filter (fun i => Sentinel3.containsSub "_NT_" i.id)) with
      | nil => exact absurd hc hnt
      | cons a l => rfl
    simpa [Sentinel3.pickFromGroup, hne] using hit
  · intro hnt hnr
    obtain ⟨it, hit, hmem, hmax⟩ := pyMaxBy_spec Sentinel3.lastTsOf _ hnr
    refine ⟨it, ?_, hmem, hmax⟩
    have hne : (g.filter (fun i => Sentinel3.containsSub "_NR_" i.id)).isEmpty = false := by
      cases hc : (g.filter (fun i => Sentinel3.containsSub "_NR_" i.id)) with
      | nil => exact absurd hc hnr
      | cons a l => rfl
    simpa [Sentinel3.pickFromGroup, hnt, hne] using hit
  · intro hnt hnr
    simp [Sentinel3.pickFromGroup, hnt, hnr]

/-! Bridging lemmas between the exception-aware deduplicator model and the
total (normal-termination) one: whenever every marker-tagged item carries
at least one embedded timestamp, no `max()` key evaluation fails and the
two models agree. -/

theorem lastTs_some (it : Item) (h : Sentinel3.extract_timestamps it.id ≠ []) :
    Sentinel3.lastTs? it = some (Sentinel3.lastTsOf it) := by
  have hs : (Sentinel3.extract_timestamps it.id).getLast?.isSome = true :=
    List.getLast?_isSome.mpr h
  obtain ⟨ts, hts⟩ := Option.isSome_iff_exists.mp hs
  show (Sentinel3.extract_timestamps it.id).getLast?
      = some ((Sentinel3.extract_timestamps it.id).getLastD "")
  rw [List.getLastD_eq_getLast?, hts]
  rfl

theorem pyMaxByGo_eq (l : List Item) :
    (∀ y ∈ l, Sentinel3.lastTs? y = some (Sentinel3.lastTsOf y)) →
    ∀ m : Item,
      Sentinel3.pyMaxByGo Sentinel3.lastTs? l m (Sentinel3.lastTsOf m)
        = some (l.foldl (fun m y =>
            if strLt (Sentinel3.lastTsOf m) (Sentinel3.lastTsOf y) then y else m) m) := by
  induction l with
  | nil => intro _ m; rfl
  | cons y ys ih =>
    intro hl m
    have hy : Sentinel3.lastTs? y = some (Sentinel3.lastTsOf y) :=
      hl y (List.mem_cons_self _ _)
    have hys : ∀ z ∈ ys, Sentinel3.lastTs? z = some (Sentinel3.lastTsOf z) :=
      fun z hz => hl z (List.mem_cons.mpr (Or.inr hz))
    have hstep : Sentinel3.pyMaxByGo Sentinel3.lastTs? (y :: ys) m (Sentinel3.lastTsOf m)
        = if strLt (Sentinel3.lastTsOf m) (Sentinel3.lastTsOf y)
          then Sentinel3.pyMaxByGo Sentinel3.lastTs? ys y (Sentinel3.lastTsOf y)
          else Sentinel3.pyMaxByGo Sentinel3.lastTs? ys m (Sentinel3.lastTsOf m) := by
      simp only [Sentinel3.pyMaxByGo, hy]
    rw [hstep, List.foldl_cons]
    by_cases hlt : strLt (Sentinel3.lastTsOf m) (Sentinel3.lastTsOf y) = true
    · rw [if_pos hlt, if_pos hlt, ih hys y]
    · rw [if_neg hlt, if_neg hlt, ih hys m]

theorem pyMaxBy_checked_eq (l : List Item)
    (hl : ∀ y ∈ l, Sentinel3.extract_timestamps y.id ≠ []) :
    Sentinel3.pyMaxBy? Sentinel3.lastTs? l = Sentinel3.pyMaxBy Sentinel3.lastTsOf l := by
  cases l with
  | nil => rfl
  | cons x xs =>
    have hx : Sentinel3.lastTs? x = some (Sentinel3.lastTsOf x) :=
      lastTs_some x (hl x (List.mem_cons_self _ _))
    have hxs : ∀ y ∈ xs, Sentinel3.lastTs? y = some (Sentinel3.lastTsOf y) :=
      fun y hy => lastTs_some y (hl y (List.mem_cons.mpr (Or.inr hy)))
    have h1 : Sentinel3.pyMaxBy? Sentinel3.lastTs? (x :: xs)
        = Sentinel3.pyMaxByGo Sentinel3.lastTs? xs x (Sentinel3.lastTsOf x) := by
      simp only [Sentinel3.pyMaxBy?, hx]
    rw [h1, pyMaxByGo_eq xs hxs x]
    rfl

theorem pickFromGroup_checked_eq (g : List Item)
    (hg : ∀ i ∈ g,
      (Sentinel3.containsSub "_NT_" i.id = true
        ∨ Sentinel3.containsSub "_NR_" i.id = true) →
      Sentinel3.extract_timestamps i.id ≠ []) :
    Sentinel3.pickFromGroup? g = some (Sentinel3.pickFromGroup g) := by
  by_cases hnt : (g.filter (fun i => Sentinel3.containsSub "_NT_" i.id)).isEmpty = true
  · by_cases hnr : (g.filter (fun i => Sentinel3.containsSub "_NR_" i.id)).isEmpty = true
    · simp [Sentinel3.pickFromGroup?, Sentinel3.pickFromGroup, hnt, hnr]
    · have hts : ∀ y ∈ g.filter (fun i => Sentinel3.containsSub "_NR_" i.id),
          Sentinel3.extract_timestamps y.id ≠ [] := by
        intro y hy
        have h2 := List.mem_filter.mp hy
        exact hg y h2.1 (Or.inr h2.2)
      have heq := pyMaxBy_checked_eq _ hts
      simp only [Sentinel3.pickFromGroup?, Sentinel3.pickFromGroup, hnt, hnr, if_true,
        if_false, heq]
      cases hc : g.filter (fun i => Sentinel3.containsSub "_NR_" i.id) with
      | nil => rw [hc] at hnr; exact absurd rfl hnr
      | cons a l => rfl
  · have hts : ∀ y ∈ g.filter (fun i => Sentinel3.containsSub "_NT_" i.id),
        Sentinel3.extract_timestamps y.id ≠ [] := by
      intro y hy
      have h2 := List.mem_filter.mp hy
      exact hg y h2.1 (Or.inl h2.2)
    have heq := pyMaxBy_checked_eq _ hts
    simp only [Sentinel3.pickFromGroup?, Sentinel3.pickFromGroup, hnt, heq]
    cases hc : g.filter (fun i => Sentinel3.containsSub "_NT_" i.id) with
    | nil => rw [hc] at hnt; exact absurd rfl hnt
    | cons a l => rfl

theorem insertGroup_mem_prop (P : Item → Prop) (b : String) (it : Item) (hit : P it) :
    ∀ acc : List (String × List Item),
      (∀ kg ∈ acc, ∀ i ∈ kg.2, P i) →
      ∀ kg ∈ Sentinel3.insertGroup acc b it, ∀ i ∈ kg.2, P i := by
  intro acc
  induction acc with
  | nil =>
    intro _ kg hkg i hi
    simp only [Sentinel3.insertGroup, List.mem_singleton] at hkg
    rw [hkg] at hi
    simp only [List.mem_singleton] at hi
    rw [hi]; exact hit
  | cons kv rest ih =>
    intro hacc kg hkg i hi
    obtain ⟨k, l⟩ := kv
    by_cases he : k = b
    · rw [show Sentinel3.insertGroup ((k, l) :: rest) b it
          = (k, l ++ [it]) :: rest from by simp [Sentinel3.insertGroup, he]] at hkg
      rcases List.mem_cons.mp hkg with h1 | h1
      · rw [h1] at hi
        rcases List.mem_append.mp hi with h2 | h2
        · exact hacc (k, l) (List.mem_cons_self _ _) i h2
        · simp only [List.mem_singleton] at h2
          rw [h2]; exact hit
      · exact hacc kg (List.mem_cons.mpr (Or.inr h1)) i hi
    · rw [show Sentinel3.insertGroup ((k, l) :: rest) b it
          = (k, l) :: Sentinel3.insertGroup rest b it from by
        simp [Sentinel3.insertGroup, he]] at hkg
      rcases List.mem_cons.mp hkg with h1 | h1
      · rw [h1] at hi
        exact hacc (k, l) (List.mem_cons_self _ _) i hi
      · exact ih (fun kg2 hkg2 => hacc kg2 (List.mem_cons.mpr (Or.inr hkg2))) kg h1 i hi

theorem groupByBase_go_mem_prop (P : Item → Prop) :
    ∀ items : List Item, (∀ i ∈ items, P i) →
      ∀ acc : List (String × List Item),
        (∀ kg ∈ acc, ∀ i ∈ kg.2, P i) →
        ∀ kg ∈ items.foldl (fun acc it =>
            Sentinel3.insertGroup acc (Sentinel3.get_base_id it.id) it) acc,
          ∀ i ∈ kg.2, P i := by
  intro items
  induction items with
  | nil => intro _ acc h; simpa using h
  | cons it rest ih =>
    intro hits acc h
    simp only [List.foldl_cons]
    exact ih (fun i hi => hits i (List.mem_cons.mpr (Or.inr hi))) _
      (insertGroup_mem_prop P (Sentinel3.get_base_id it.id) it
        (hits it (List.mem_cons_self _ _)) acc h)

theorem groupByBase_mem_prop (P : Item → Prop) (items : List Item)
    (h : ∀ i ∈ items, P i) :
    ∀ kg ∈ Sentinel3.groupByBase items, ∀ i ∈ kg.2, P i :=
  groupByBase_go_mem_prop P items h [] (by simp)

theorem foldl_pick_checked (gs : List (String × List Item))
    (hgs : ∀ kg ∈ gs, Sentinel3.pickFromGroup? kg.2
      = some (Sentinel3.pickFromGroup kg.2)) :
    ∀ res : List Item,
      gs.foldl (fun acc bg =>
        match acc with
        | none => none
        | some res =>
          match Sentinel3.pickFromGroup? bg.2 with
          | none => none
          | some none => some res
          | some (some it) => some (res ++ [it])) (some res)
      = some (res ++ gs.filterMap (fun bg => Sentinel3.pickFromGroup bg.2)) := by
  induction gs with
  | nil => intro res; simp
  | cons kg rest ih =>
    intro res
    have hkg := hgs kg (List.mem_cons_self _ _)
    have hrest := ih (fun kg2 h2 => hgs kg2 (List.mem_cons.mpr (Or.inr h2)))
    rw [List.foldl_cons, hkg]
    cases hp : Sentinel3.pickFromGroup kg.2 with
    | none =>
      rw [List.filterMap_cons, hp]
      exact hrest res
    | some it =>
      rw [List.filterMap_cons, hp]
      have h2 := hrest (res ++ [it])
      rw [List.append_assoc] at h2
      exact h2

theorem filter_acq_checked_eq (items : List Item)
    (hok : ∀ it ∈ items,
      (Sentinel3.containsSub "_NT_" it.id = true
        ∨ Sentinel3.containsSub "_NR_" it.id = true) →
      Sentinel3.extract_timestamps it.id ≠ []) :
    Sentinel3.filter_acquisition_time? items
      = some (Sentinel3.filter_acquisition_time items) := by
  have hmem := groupByBase_mem_prop
    (fun i => (Sentinel3.containsSub "_NT_" i.id = true
        ∨ Sentinel3.containsSub "_NR_" i.id = true) →
      Sentinel3.extract_timestamps i.id ≠ []) items hok
  have hgs : ∀ kg ∈ Sentinel3.groupByBase items,
      Sentinel3.pickFromGroup? kg.2 = some (Sentinel3.pickFromGroup kg.2) :=
    fun kg hkg => pickFromGroup_checked_eq kg.2 (hmem kg hkg)
  have h := foldl_pick_checked (Sentinel3.groupByBase items) hgs []
  simpa [Sentinel3.filter_acquisition_time?, Sentinel3.filter_acquisition_time] using h

theorem filter_acq_checked_singleton (it : Item) :
    Sentinel3.filter_acquisition_time? [it]
      = match Sentinel3.pickFromGroup? [it] with
        | none => none
        | some none => some []
        | some (some j) => some [j] := by
  have hg : Sentinel3.groupByBase [it]
      = [(Sentinel3.get_base_id it.id, [it])] := rfl
  simp only [Sentinel3.filter_acquisition_time?, hg, List.foldl_cons, List.foldl_nil]
  cases Sentinel3.pickFromGroup? [it] with
  | none => rfl
  | some o => cases o with
    | none => rfl
    | some j => rfl

/-! Claims C3 and C4 — the Sentinel-3 acquisition deduplicator. -/

/-- The normal-termination behaviour of the deduplicator: at most one item
per base acquisition key, and per group a maximal-processing-timestamp
`_NT_` item is kept if any exists, else a maximal `_NR_` item, else
nothing.  This describes `filter_acquisition_time`, the total model; it is
silent about the inputs on which the python code raises `IndexError`. -/
theorem dedup_total_spec (items : List Item) :
    (∀ b : String,
      ((Sentinel3.filter_acquisition_time items).filter
        (fun i => decide (Sentinel3.get_base_id i.id = b))).length ≤ 1) ∧
    (∀ kg ∈ Sentinel3.groupByBase items,
      (kg.2.filter (fun i => Sentinel3.containsSub "_NT_" i.id) ≠ [] →
        ∃ it, Sentinel3.pickFromGroup kg.2 = some it ∧
          it ∈ Sentinel3.filter_acquisition_time items ∧
          it ∈ kg.2.filter (fun i => Sentinel3.containsSub "_NT_" i.id) ∧
          ∀ j ∈ kg.2.filter (fun i => Sentinel3.containsSub "_NT_" i.id),
            strLt (Sentinel3.lastTsOf it) (Sentinel3.lastTsOf j) = false) ∧
      (kg.2.filter (fun i => Sentinel3.containsSub "_NT_" i.id) = [] →
        kg.2.filter (fun i => Sentinel3.containsSub "_NR_" i.id) ≠ [] →
        ∃ it, Sentinel3.pickFromGroup kg.2 = some it ∧
          it ∈ Sentinel3.filter_acquisition_time items ∧
          it ∈ kg.2.filter (fun i => Sentinel3.containsSub "_NR_" i.id) ∧
          ∀ j ∈ kg.2.filter (fun i => Sentinel3.containsSub "_NR_" i.id),
            strLt (Sentinel3.lastTsOf it) (Sentinel3.lastTsOf j) = false) ∧
      (kg.2.filter (fun i => Sentinel3.containsSub "_NT_" i.id) = [] →
        kg.2.filter (fun i => Sentinel3.containsSub "_NR_" i.id) = [] →
        Sentinel3.pickFromGroup kg.2 = none)) := by
  constructor
  · exact filterMap_pick_count (Sentinel3.groupByBase items)
      (groupByBase_keys_nodup items) (groupByBase_mem_base items)
  · intro kg hkg
    have hspec := pickFromGroup_spec kg.2
    refine ⟨?_, ?_, hspec.2.2⟩
    · intro hnt
      obtain ⟨it, hit, hmem, hmax⟩ := hspec.1 hnt
      exact ⟨it, hit, List.mem_filterMap.mpr ⟨kg, hkg, hit⟩, hmem, hmax⟩
    · intro hnt hnr
      obtain ⟨it, hit, hmem, hmax⟩ := hspec.2.1 hnt hnr
      exact ⟨it, hit, List.mem_filterMap.mpr ⟨kg, hkg, hit⟩, hmem, hmax⟩

/-- C3 counterexample: the claim's per-group selection is not total.  The
item `cCrash` carries an `_NT_` marker but embeds no timestamp, so the
`max()` key `_extract_timestamps(x.id)[-1]` raises an uncaught
`IndexError`: the deduplicator neither keeps nor drops the group — it
aborts (`none`), refuting the claim's "for every input list". -/
theorem dedup_raises_without_timestamp :
    Sentinel3.containsSub "_NT_" cCrash.id = true ∧
    Sentinel3.extract_timestamps cCrash.id = [] ∧
    Sentinel3.filter_acquisition_time? [cCrash] = none :=
  ⟨by decide, by decide, by decide⟩

/-- C3 (amended): provided every marker-tagged (`_NT_`/`_NR_`) item's
identifier embeds at least one timestamp, the deduplicator terminates
normally — the exception-aware model returns the total model's result —
and that result keeps at most one item per base acquisition key; within
each base-key group a maximal-last-timestamp `_NT_` item is kept if any
exists, else a maximal `_NR_` item, else the group contributes nothing.
Without the proviso the code can instead raise an uncaught `IndexError`
(see the counterexample). -/
theorem dedup_checked_keeps_one_per_base (items : List Item)
    (hok : ∀ it ∈ items,
      (Sentinel3.containsSub "_NT_" it.id = true
        ∨ Sentinel3.containsSub "_NR_" it.id = true) →
      Sentinel3.extract_timestamps it.id ≠ []) :
    Sentinel3.filter_acquisition_time? items
      = some (Sentinel3.filter_acquisition_time items) ∧
    (∀ b : String,
      ((Sentinel3.filter_acquisition_time items).filter
        (fun i => decide (Sentinel3.get_base_id i.id = b))).length ≤ 1) ∧
    (∀ kg ∈ Sentinel3.groupByBase items,
      (kg.2.filter (fun i => Sentinel3.containsSub "_NT_" i.id) ≠ [] →
        ∃ it, Sentinel3.pickFromGroup kg.2 = some it ∧
          it ∈ Sentinel3.filter_acquisition_time items ∧
          it ∈ kg.2.filter (fun i => Sentinel3.containsSub "_NT_" i.id) ∧
          ∀ j ∈ kg.2.filter (fun i => Sentinel3.containsSub "_NT_" i.id),
            strLt (Sentinel3.lastTsOf it) (Sentinel3.lastTsOf j) = false) ∧
      (kg.2.filter (fun i => Sentinel3.containsSub "_NT_" i.id) = [] →
        kg.2.filter (fun i => Sentinel3.containsSub "_NR_" i.id) ≠ [] →
        ∃ it, Sentinel3.pickFromGroup kg.2 = some it ∧
          it ∈ Sentinel3.filter_acquisition_time items ∧
          it ∈ kg.2.filter (fun i => Sentinel3.containsSub "_NR_" i.id) ∧
          ∀ j ∈ kg.2.filter (fun i => Sentinel3.containsSub "_NR_" i.id),
            strLt (Sentinel3.lastTsOf it) (Sentinel3.lastTsOf j) = false) ∧
      (kg.2.filter (fun i => Sentinel3.containsSub "_NT_" i.id) = [] →
        kg.2.filter (fun i => Sentinel3.containsSub "_NR_" i.id) = [] →
        Sentinel3.pickFromGroup kg.2 = none)) :=
  ⟨filter_acq_checked_eq items hok, (dedup_total_spec items).1, (dedup_total_spec items).2⟩

/-- C3 witness: three items of one acquisition — an `_NR_` item and two
`_NT_` items with processing timestamps 2020-01-02 and 2020-01-04, all
with well-formed identifiers — satisfy the proviso; the run terminates
normally and reduces the group to the single later `_NT_` item `n3`. -/
theorem dedup_checked_keeps_one_per_base_witness :
    (∀ it ∈ [n1, n2, n3],
      (Sentinel3.containsSub "_NT_" it.id = true
        ∨ Sentinel3.containsSub "_NR_" it.id = true) →
      Sentinel3.extract_timestamps it.id ≠ []) ∧
    Sentinel3.filter_acquisition_time? [n1, n2, n3]
      = some (Sentinel3.filter_acquisition_time [n1, n2, n3]) ∧
    Sentinel3.filter_acquisition_time [n1, n2, n3] = [n3] ∧
    ((Sentinel3.filter_acquisition_time [n1, n2, n3]).filter
      (fun i => decide (Sentinel3.get_base_id i.id
        = "S3A_20200101T000000_20200101T000100"))).length ≤ 1 := by
  have h := dedup_checked_keeps_one_per_base [n1, n2, n3] (by decide)
  exact ⟨by decide, h.1, by decide, h.2.1 _⟩

/-- C4 counterexample: the item with identifier `"FOO"` (no embedded
timestamps) triggers the warning and keeps its identifier as base key, but
the deduplicator DROPS it (no `_NT_`/`_NR_` marker) instead of passing it
through; the marker-tagged malformed item `cCrash` is warned too, yet is
not passed through either — the run aborts with an uncaught `IndexError`;
moreover an identifier with four embedded timestamps is "not exactly
three" yet triggers no warning. -/
theorem malformed_item_dropped :
    Sentinel3.base_id_warned cMal.id = true ∧
    Sentinel3.get_base_id cMal.id = cMal.id ∧
    Sentinel3.filter_acquisition_time [cMal] = [] ∧
    Sentinel3.base_id_warned cCrash.id = true ∧
    Sentinel3.filter_acquisition_time? [cCrash] = none ∧
    Sentinel3.base_id_warned
      "A_20200101T000000_20200102T000000_20200103T000000_20200104T000000" = false :=
  ⟨by decide, by decide, by decide, by decide, by decide, by decide⟩

/-- C4 (amended): for an item whose identifier embeds FEWER THAN three
timestamps, the deduplicator logs the warning and treats the unchanged
identifier as the item's own base key; the item is then NOT passed through
unconditionally — on its own it is dropped when its identifier has no
`"_NT_"`/`"_NR_"` marker, kept when it has a marker and at least one
embedded timestamp, and the code raises an uncaught `IndexError` when it
has a marker but no embedded timestamp. -/
theorem malformed_id_warned_then_selected (it : Item)
    (h : (Sentinel3.extract_timestamps it.id).length < 3) :
    Sentinel3.base_id_warned it.id = true ∧
    Sentinel3.get_base_id it.id = it.id ∧
    (Sentinel3.containsSub "_NT_" it.id = false →
      Sentinel3.containsSub "_NR_" it.id = false →
      Sentinel3.filter_acquisition_time? [it] = some []) ∧
    ((Sentinel3.containsSub "_NT_" it.id = true
        ∨ Sentinel3.containsSub "_NR_" it.id = true) →
      Sentinel3.extract_timestamps it.id ≠ [] →
      Sentinel3.filter_acquisition_time? [it] = some [it]) ∧
    ((Sentinel3.containsSub "_NT_" it.id = true
        ∨ Sentinel3.containsSub "_NR_" it.id = true) →
      Sentinel3.extract_timestamps it.id = [] →
      Sentinel3.filter_acquisition_time? [it] = none) := by
  refine ⟨decide_eq_true h, ?_, ?_, ?_, ?_⟩
  · simp only [Sentinel3.get_base_id]
    rw [if_pos h]
  · intro hnt hnr
    rw [filter_acq_checked_singleton]
    rw [show Sentinel3.pickFromGroup? [it] = some none from by
      simp [Sentinel3.pickFromGroup?, List.filter_cons, hnt, hnr]]
  · intro hm hts
    have hlast := lastTs_some it hts
    rw [filter_acq_checked_singleton]
    cases hnt : Sentinel3.containsSub "_NT_" it.id with
    | true =>
      rw [show Sentinel3.pickFromGroup? [it] = some (some it) from by
        simp [Sentinel3.pickFromGroup?, List.filter_cons, hnt,
          Sentinel3.pyMaxBy?, hlast, Sentinel3.pyMaxByGo]]
    | false =>
      have hnr : Sentinel3.containsSub "_NR_" it.id = true := by
        rcases hm with h1 | h1
        · rw [hnt] at h1; exact Bool.noConfusion h1
        · exact h1
      rw [show Sentinel3.pickFromGroup? [it] = some (some it) from by
        simp [Sentinel3.pickFromGroup?, List.filter_cons, hnt, hnr,
          Sentinel3.pyMaxBy?, hlast, Sentinel3.pyMaxByGo]]
  · intro hm hts
    have hlast : Sentinel3.lastTs? it = none := by
      simp [Sentinel3.lastTs?, hts]
    rw [filter_acq_checked_singleton]
    cases hnt : Sentinel3.containsSub "_NT_" it.id with
    | true =>
      rw [show Sentinel3.pickFromGroup? [it] = none from by
        simp [Sentinel3.pickFromGroup?, List.filter_cons, hnt,
          Sentinel3.pyMaxBy?, hlast]]
    | false =>
      have hnr : Sentinel3.containsSub "_NR_" it.id = true := by
        rcases hm with h1 | h1
        · rw [hnt] at h1; exact Bool.noConfusion h1
        · exact h1
      rw [show Sentinel3.pickFromGroup? [it] = none from by
        simp [Sentinel3.pickFromGroup?, List.filter_cons, hnt, hnr,
          Sentinel3.pyMaxBy?, hlast]]

/-- C4 witness: the amended theorem applied to `cMalNT`, a malformed item
(one embedded timestamp) carrying an `_NT_` marker: the warning fires, the
base key is the unchanged identifier, and the run terminates keeping the
item. -/
theorem malformed_id_warned_then_selected_witness :
    (Sentinel3.extract_timestamps cMalNT.id).length < 3 ∧
    Sentinel3.base_id_warned cMalNT.id = true ∧
    Sentinel3.get_base_id cMalNT.id = cMalNT.id ∧
    Sentinel3.filter_acquisition_time? [cMalNT] = some [cMalNT] := by
  have h := malformed_id_warned_then_selected cMalNT (by decide)
  exact ⟨by decide, h.1, h.2.1, h.2.2.2.1 (Or.inl (by decide)) (by decide)⟩

/-! Claim C8 — the reprojection path of the zone merger. -/

theorem reprojectWarnings_shape (agg_methods : Option Sentinel2.AggMethods)
    (ds : Dataset) :
    ∀ x ∈ Sentinel2.reprojectWarnings agg_methods ds,
      ∃ m, x = Sentinel2.ResampleWarning.sclAggCorrupt m := by
  intro x hx
  obtain ⟨kv, _, hmem⟩ := List.mem_flatMap.mp hx
  by_cases hflag : (Sentinel2.get_var_agg_method agg_methods kv.1 kv.2.dtype).2 = true
  · rw [if_pos hflag] at hmem
    simp only [List.mem_singleton] at hmem
    exact ⟨_, hmem⟩
  · rw [if_neg hflag] at hmem
    simp at hmem

/-- C8 counterexample: with the caller-supplied spline-order override `0`
(a valid schema value meaning nearest-neighbor), the reprojection path
still plans bilinear for the continuous variable and nearest for `scl`,
i.e. the override is ignored, yet NO warning is logged: the code guards
the warning with python truthiness (`if spline_orders:`) and `0` is
falsy. -/
theorem reproject_override_zero_no_warning :
    (Sentinel2.resample_dataset_soft dsScl "EPSG:32632" "EPSG:4326" false
        (some (Sentinel2.SplineOrders.scalar 0)) none).2 = [] ∧
    (Sentinel2.resample_dataset_soft dsScl "EPSG:32632" "EPSG:4326" false
        (some (Sentinel2.SplineOrders.scalar 0)) none).1
      = Sentinel2.ResamplePlan.reproject
          [(["B01"], "bilinear"), (["scl"], "nearest")]
          [("B01", ⟨true, none, "mean"⟩), ("scl", ⟨true, none, "center"⟩)] ∧
    some (Sentinel2.SplineOrders.scalar 0) ≠ (none : Option Sentinel2.SplineOrders) :=
  ⟨by decide, by decide, by decide⟩

/-- C8 (amended): on the reprojection path (different CRS, grids not
close) the caller's spline-order override is never honored: the plan
always reprojects the non-`scl` variables with bilinear interpolation and,
when `scl` is present, `scl` with nearest-neighbor in a separate second
pass to be recombined; the "override will be ignored" warning is logged
iff the supplied override is python-truthy (`None`, `0` and the empty
dict log nothing although they are equally ignored).  The planning
function is total — no configuration raises. -/
theorem reproject_ignores_spline_override (ds : Dataset)
    (source_crs target_crs : String) (spline_orders : Option Sentinel2.SplineOrders)
    (agg_methods : Option Sentinel2.AggMethods)
    (hne : target_crs ≠ source_crs) :
    (∃ cfgs, (Sentinel2.resample_dataset_soft ds source_crs target_crs false
        spline_orders agg_methods).1
      = Sentinel2.ResamplePlan.reproject
          (if (Sentinel2.varNames ds).contains "scl" then
            [((Sentinel2.varNames ds).filter (fun k => !(k = "scl")), "bilinear"),
             (["scl"], "nearest")]
          else [(Sentinel2.varNames ds, "bilinear")]) cfgs) ∧
    (Sentinel2.ResampleWarning.splineOverrideIgnored
        ∈ (Sentinel2.resample_dataset_soft ds source_crs target_crs false
            spline_orders agg_methods).2
      ↔ Sentinel2.truthySplineOrders spline_orders = true) := by
  have hw : (Sentinel2.resample_dataset_soft ds source_crs target_crs false
      spline_orders agg_methods).2
    = (if Sentinel2.truthySplineOrders spline_orders
        then [Sentinel2.ResampleWarning.splineOverrideIgnored] else [])
      ++ Sentinel2.reprojectWarnings agg_methods ds := by
    simp only [Sentinel2.resample_dataset_soft]
    rw [if_neg (by simp), if_neg hne]
  constructor
  · refine ⟨ds.vars.map (fun kv =>
      (kv.1, { recover_nan := true, spline_order := none,
               aggregator := (Sentinel2.get_var_agg_method agg_methods
                 kv.1 kv.2.dtype).1 })), ?_⟩
    simp only [Sentinel2.resample_dataset_soft]
    rw [if_neg (by simp), if_neg hne,
      show Sentinel2.INTERPOLATIONS 2 = "bilinear" from rfl,
      show Sentinel2.INTERPOLATIONS 0 = "nearest" from rfl]
  · rw [hw]
    cases htr : Sentinel2.truthySplineOrders spline_orders with
    | true =>
      simp [htr]
    | false =>
      simp only [htr, Bool.false_eq_true, if_false, List.nil_append, iff_false]
      intro hmem
      obtain ⟨m, hm⟩ := reprojectWarnings_shape agg_methods ds _ hmem
      exact Sentinel2.ResampleWarning.noConfusion hm

/-- C8 witness: the amended theorem applied to the dataset `dsScl` with a
truthy override `1`: the plan is the two fixed passes (bilinear for
`"B01"`, nearest for `"scl"`) and the ignored-override warning is
logged. -/
theorem reproject_ignores_spline_override_witness :
    ("EPSG:4326" : String) ≠ "EPSG:32632" ∧
    (∃ cfgs, (Sentinel2.resample_dataset_soft dsScl "EPSG:32632" "EPSG:4326" false
        (some (Sentinel2.SplineOrders.scalar 1)) none).1
      = Sentinel2.ResamplePlan.reproject
          [(["B01"], "bilinear"), (["scl"], "nearest")] cfgs) ∧
    Sentinel2.ResampleWarning.splineOverrideIgnored
      ∈ (Sentinel2.resample_dataset_soft dsScl "EPSG:32632" "EPSG:4326" false
          (some (Sentinel2.SplineOrders.scalar 1)) none).2 := by
  have h := reproject_ignores_spline_override dsScl "EPSG:32632" "EPSG:4326"
    (some (Sentinel2.SplineOrders.scalar 1)) none (by decide)
  refine ⟨by decide, ?_, h.2.mpr (by decide)⟩
  obtain ⟨cfgs, hc⟩ := h.1
  have hif : (if (Sentinel2.varNames dsScl).contains "scl" then
      [((Sentinel2.varNames dsScl).filter (fun k => !(k = "scl")), "bilinear"),
       (["scl"], "nearest")]
    else [(Sentinel2.varNames dsScl, "bilinear")])
      = [(["B01"], "bilinear"), (["scl"], "nearest")] := by decide
  exact ⟨cfgs, hc.trans (by rw [hif])⟩
